import Mathlib

/-!
Verification development for the shape-editing core of the `napari` Shapes
layer (`src/napari/layers/shapes/shapes.py`).

The Python class `Shapes` is embedded shallowly: its mutable attributes become
fields of the structure `Napari.ShapesLayer`, and each method or property
setter under scrutiny becomes a pure Lean function from state to state
(returning extra components where the Python code raises, warns, or returns a
value).  Machinery that lives outside `src/` (the `ShapeList` data view, the
mouse bindings, geometry utilities) is modelled from the specification and is
marked `Modelled from the spec:` in its doc comment.

Modelling conventions:
* RGBA colors are the inductive `Napari.Color`; the concrete float arithmetic
  of colormap interpolation is kept symbolic in the constructor
  `Color.mapped` (colormap name, contrast limits, value).
* numpy property arrays are `Napari.PropArray`: a dtype flag (`isNumeric`)
  plus an integer value list.  Only equality, ordering, and the dtype test on
  property values enter the translated code, so integers stand in for both
  numeric values and categorical codes.
* Python dicts keep insertion order, so they are association lists.
* Vertices are pairs of rationals; the rotation-handle point of an
  interaction box involves floating-point norms and the view zoom factor, so
  it is held abstract as a function field (`rotationHandle`) of the state and
  applied exactly where the source appends the handle.
* `warnings.warn` and raised exceptions become explicit result components;
  a raise aborts the rest of the method while keeping mutations already made,
  exactly as in Python.
-/

namespace Napari

/-- Interaction mode of the layer (`Mode` in `_shapes_constants`): the ten
members used by `Shapes.mode`. -/
inductive Mode
  | panZoom | select | direct | vertexInsert | vertexRemove
  | addRectangle | addEllipse | addLine | addPath | addPolygon
deriving DecidableEq, Repr

/-- Color setting mode of one color channel (`ColorMode`). -/
inductive ColorMode
  | direct | cycle | colormap
deriving DecidableEq, Repr

/-- Which color channel an `attribute in (edge, face)` string argument
selects; replaces the `getattr`/`setattr` f-string dispatch of the source. -/
inductive Channel
  | edge | face
deriving DecidableEq, Repr

/-- An RGBA color.  `rgba` holds concrete channel values (the color cycle
entries of the source are such concrete rows); `mapped` records symbolically
that a value was sent through a named continuous colormap with the given
contrast limits, keeping the float interpolation abstract. -/
inductive Color
  | rgba (r g b a : Int)
  | mapped (cmap : String) (lo hi v : Int)
deriving DecidableEq, Repr

/-- The default color (`white`) used by the color transformation utilities. -/
def cWhite : Color := Color.rgba 1 1 1 1

instance : Inhabited Color := ⟨cWhite⟩

/-- One per-shape property array: numpy dtype flag plus values. -/
structure PropArray where
  isNumeric : Bool
  values : List Int
deriving DecidableEq, Repr

/-- The `Shapes.properties` dict: property name to value array, insertion
ordered. -/
abbrev Props := List (String × PropArray)

/-- Shape kind (`ShapeType`). -/
inductive ShapeKind
  | rectangle | ellipse | line | path | polygon
deriving DecidableEq, Repr

/-- A vertex in the two displayed dimensions. -/
abbrev Pt := ℚ × ℚ

/-- One record of the data view's shape list: the fields of a `Shape` object
that the claims touch (`data`, `edge_width`, `z_index`, the cached `_box`,
and whether the shape is in the displayed slice). -/
structure ShapeRec where
  kind : ShapeKind
  data : List Pt
  edgeWidth : Int
  zIndex : Int
  box9 : List Pt
  displayed : Bool
deriving DecidableEq, Repr

/-- Default shape record (used only to totalize list indexing; Python would
raise `IndexError` where this default is reached). -/
def defaultShape : ShapeRec :=
  { kind := ShapeKind.rectangle, data := [], edgeWidth := 1, zIndex := 0,
    box9 := [], displayed := true }

instance : Inhabited ShapeRec := ⟨defaultShape⟩

/-- State of an `itertools.cycle` iterator over color entries: the underlying
finite list and how many elements have been consumed. -/
structure ColorCycle where
  elems : List Color
  pos : Nat
deriving DecidableEq, Repr

/-- Draw the next color from the cycle (`next(color_cycle)`), advancing it. -/
def ColorCycle.next (c : ColorCycle) : Color × ColorCycle :=
  (c.elems.getD (c.pos % c.elems.length) cWhite, { c with pos := c.pos + 1 })

/-- Draw `n` colors from the cycle, as `zip` with an `n`-element list does. -/
def ColorCycle.takeN : ColorCycle → Nat → List Color × ColorCycle
  | c, 0 => ([], c)
  | c, n + 1 =>
    let (x, c1) := c.next
    let (xs, c2) := c1.takeN n
    (x :: xs, c2)

/-- The color cycle map of one channel: discrete property value to assigned
color, a Python dict (insertion-ordered association list). -/
abbrev CycleMap := List (Int × Color)

/-- Dict lookup in a cycle map. -/
def cmLookup : CycleMap → Int → Option Color
  | [], _ => none
  | (k, c) :: rest, x => if k = x then some c else cmLookup rest x

/-- Dict assignment `m[k] = c`: overwrite in place if the key exists,
otherwise append. -/
def cmInsert : CycleMap → Int → Color → CycleMap
  | [], k, c => [(k, c)]
  | (k', c') :: rest, k, c =>
    if k' = k then (k, c) :: rest else (k', c') :: cmInsert rest k c

/-- Lookup a property array by name in a properties dict. -/
def propsLookup : Props → String → Option PropArray
  | [], _ => none
  | (k, v) :: rest, x => if k = x then some v else propsLookup rest x

/-- Value list of a named property (`self.properties[name]`); empty when the
name is absent (Python would raise `KeyError`). -/
def propsValues (ps : Props) (name : String) : List Int :=
  ((propsLookup ps name).getD { isNumeric := true, values := [] }).values

/-- Replace the element at an index, leaving the list unchanged when the
index is out of range. -/
def listModify : List α → Nat → (α → α) → List α
  | [], _, _ => []
  | x :: xs, 0, f => f x :: xs
  | x :: xs, n + 1, f => x :: listModify xs n f

/-- Set the element at an index (`arr[i] = v` on a numpy row). -/
def listSet (l : List α) (i : Nat) (v : α) : List α :=
  listModify l i (fun _ => v)

/-- Insert into a sorted list of integers, keeping it sorted. -/
def insSortedInt (x : Int) : List Int → List Int
  | [] => [x]
  | y :: ys => if x ≤ y then x :: y :: ys else y :: insSortedInt x ys

/-- Sort a list of integers ascending (insertion sort). -/
def sortInts (l : List Int) : List Int := l.foldr insSortedInt []

/-- Sorted deduplication, the observable behavior of `np.unique` on a value
array. -/
def npUnique (l : List Int) : List Int := (sortInts l).dedup

/-- Deletion of the rows listed in `idx` (`np.delete(arr, idx, axis=0)`). -/
def npDelete [Inhabited α] (l : List α) (idx : List Nat) : List α :=
  ((List.range l.length).filter (fun i => decide (i ∉ idx))).map
    (fun i => l.getD i default)

/-- Maximum of an integer list with a default (`max(xs, default=d)`). -/
def intMaxD (l : List Int) (d : Int) : Int := l.foldl max d

/-- Distinct rows of a color array, the observable behavior of
`np.unique(colors, axis=0)`: only the number of distinct rows and, when it is
one, that single row are read by the source. -/
def uniqueColors (l : List Color) : List Color := l.dedup

/-- Broadcast of a supplied color list against a shape count, the observable
behavior of `transform_color_with_defaults` followed by
`normalize_and_broadcast_colors`.  Modelled from the spec: a list of matching
length is used per shape, otherwise a single color is broadcast to all
(default `white`). -/
def normalizeAndBroadcastColors (n : Nat) (cs : List Color) : List Color :=
  if cs.length = n then cs else List.replicate n (cs.headD cWhite)

/-- Standardization of one color (`transform_color`): colors in the model are
already canonical RGBA rows, so this is the identity. -/
def transformColor (c : Color) : Color := c

/-- Association-list lookup for the `current_properties` dict. -/
def alLookup : List (String × List Int) → String → Option (List Int)
  | [], _ => none
  | (k, v) :: rest, x => if k = x then some v else alLookup rest x

/-- State of a `Shapes` layer: the attributes of the Python object (and of
its `_data_view` shape list) that the verified methods read or write.

The data view (`ShapeList`, not under `src/`) is represented by `shapes`
(one record per shape, carrying `data`, `edge_width`, `z_index`, the cached
box and the displayed flag) and by the parallel color row arrays
`edgeColorArr` / `faceColorArr` (`_data_view._edge_color` /
`_face_color`).

`rotationHandle` abstracts the floating-point rotation-handle geometry of
`interaction_box` (norms scaled by `_rotation_handle_length *
self.scale_factor`): it maps the 9 box points to the appended handle
point. -/
structure ShapesLayer where
  shapes : List ShapeRec
  edgeColorArr : List Color
  faceColorArr : List Color
  properties : Props
  mode : Mode
  editable : Bool
  ndisplay : Nat
  isMoving : Bool
  isCreating : Bool
  isSelecting : Bool
  selectedData : List Nat
  selectedBox : Option (List Pt)
  dragStart : Option Pt
  dragBox : Option (Pt × Pt)
  fixedVertex : Option Pt
  valueField : Option Nat × Option Nat
  movingValue : Option Nat × Option Nat
  currentEdgeColor : Color
  currentFaceColor : Color
  currentEdgeWidth : Int
  currentProperties : List (String × List Int)
  updateProperties : Bool
  allowThumbnailUpdate : Bool
  edgeColorMode : ColorMode
  faceColorMode : ColorMode
  edgeColorProperty : String
  faceColorProperty : String
  edgeColorCycle : ColorCycle
  faceColorCycle : ColorCycle
  edgeColorCycleMap : CycleMap
  faceColorCycleMap : CycleMap
  edgeContrastLimits : Option (Int × Int)
  faceContrastLimits : Option (Int × Int)
  edgeColormapName : String
  faceColormapName : String
  rotationHandle : List Pt → Pt

/-- Read `_{attribute}_color_property`. -/
def getColorProp (s : ShapesLayer) : Channel → String
  | Channel.edge => s.edgeColorProperty
  | Channel.face => s.faceColorProperty

/-- Write `_{attribute}_color_property`. -/
def setColorProp (s : ShapesLayer) : Channel → String → ShapesLayer
  | Channel.edge, v => { s with edgeColorProperty := v }
  | Channel.face, v => { s with faceColorProperty := v }

/-- Read `_{attribute}_color_mode`. -/
def getColorModeField (s : ShapesLayer) : Channel → ColorMode
  | Channel.edge => s.edgeColorMode
  | Channel.face => s.faceColorMode

/-- Write `_{attribute}_color_mode`. -/
def setColorModeField (s : ShapesLayer) : Channel → ColorMode → ShapesLayer
  | Channel.edge, v => { s with edgeColorMode := v }
  | Channel.face, v => { s with faceColorMode := v }

/-- Read `_{attribute}_color_cycle`. -/
def getColorCycle (s : ShapesLayer) : Channel → ColorCycle
  | Channel.edge => s.edgeColorCycle
  | Channel.face => s.faceColorCycle

/-- Write `_{attribute}_color_cycle`. -/
def setColorCycle (s : ShapesLayer) : Channel → ColorCycle → ShapesLayer
  | Channel.edge, v => { s with edgeColorCycle := v }
  | Channel.face, v => { s with faceColorCycle := v }

/-- Read `{attribute}_color_cycle_map`. -/
def getCycleMap (s : ShapesLayer) : Channel → CycleMap
  | Channel.edge => s.edgeColorCycleMap
  | Channel.face => s.faceColorCycleMap

/-- Write `{attribute}_color_cycle_map`. -/
def setCycleMap (s : ShapesLayer) : Channel → CycleMap → ShapesLayer
  | Channel.edge, v => { s with edgeColorCycleMap := v }
  | Channel.face, v => { s with faceColorCycleMap := v }

/-- Read `{attribute}_contrast_limits`. -/
def getContrastLimits (s : ShapesLayer) : Channel → Option (Int × Int)
  | Channel.edge => s.edgeContrastLimits
  | Channel.face => s.faceContrastLimits

/-- Write `{attribute}_contrast_limits`. -/
def setContrastLimits (s : ShapesLayer) : Channel → Option (Int × Int) → ShapesLayer
  | Channel.edge, v => { s with edgeContrastLimits := v }
  | Channel.face, v => { s with faceContrastLimits := v }

/-- Read `{attribute}_colormap`. -/
def getColormapName (s : ShapesLayer) : Channel → String
  | Channel.edge => s.edgeColormapName
  | Channel.face => s.faceColormapName

/-- Read the view's color array of a channel. -/
def getViewColors (s : ShapesLayer) : Channel → List Color
  | Channel.edge => s.edgeColorArr
  | Channel.face => s.faceColorArr

/-- Write the view's color array of a channel
(`setattr(self._data_view, '{attribute}_color', colors)`). -/
def setViewColors (s : ShapesLayer) : Channel → List Color → ShapesLayer
  | Channel.edge, v => { s with edgeColorArr := v }
  | Channel.face, v => { s with faceColorArr := v }

/-- The data view's parallel `_z_index` array, kept index-synchronized with
the shape list, hence read off the shape records. -/
def dataViewZIndex (s : ShapesLayer) : List Int := s.shapes.map (·.zIndex)

/-- Resolution of a requested z-index against the data view
(`z_index = z_index or max(self._data_view._z_index, default=-1) + 1`,
lines 1562-1563 and 1759-1760): Python `or` takes the right operand whenever
the left is falsy, so both `None` and an explicit `0` fall through to
`max + 1`. -/
def resolveZIndex (zArg : Option Int) (zList : List Int) : Int :=
  match zArg with
  | none => intMaxD zList (-1) + 1
  | some v => if v = 0 then intMaxD zList (-1) + 1 else v

/-- Colormap application (`map_property`).  Modelled from the spec: maps each
value through the continuous colormap using the `(lo, hi)` contrast-limits
normalization window; the resulting rows are kept symbolic. -/
def mapPropertyWith (cmap : String) (lo hi : Int) (vals : List Int) : List Color :=
  vals.map (fun v => Color.mapped cmap lo hi v)

/-- Translation of `Shapes._map_color` (lines 1147-1231): computes the color
rows for one channel under its cycle or colormap, updating the cycle map /
cycle iterator / contrast limits in the state.  Returns the new state and
the color array (the source mutates `self` and returns `colors`). -/
def mapColor (s : ShapesLayer) (ch : Channel) (updateColorMapping : Bool) :
    ShapesLayer × List Color :=
  let cmode := getColorModeField s ch
  if cmode = ColorMode.cycle then
    let colorProperties := propsValues s.properties (getColorProp s ch)
    if updateColorMapping then
      let uniq := npUnique colorProperties
      let tk := (getColorCycle s ch).takeN uniq.length
      let newMap : CycleMap := uniq.zip (tk.1.map transformColor)
      let s1 := setColorCycle (setCycleMap s ch newMap) ch tk.2
      (s1, colorProperties.map (fun x => (cmLookup newMap x).getD cWhite))
    else
      let m := getCycleMap s ch
      let keys := m.map Prod.fst
      if colorProperties.all (fun x => decide (x ∈ keys)) then
        (s, colorProperties.map (fun x => (cmLookup m x).getD cWhite))
      else
        let propsToAdd := npUnique (colorProperties.filter (fun x => decide (x ∉ keys)))
        let mc := propsToAdd.foldl
          (fun (acc : CycleMap × ColorCycle) p =>
            (cmInsert acc.1 p (transformColor acc.2.next.1), acc.2.next.2))
          (m, getColorCycle s ch)
        let s1 := setColorCycle (setCycleMap s ch mc.1) ch mc.2
        (s1, colorProperties.map (fun x => (cmLookup mc.1 x).getD cWhite))
  else if cmode = ColorMode.colormap then
    let colorProperties := propsValues s.properties (getColorProp s ch)
    if colorProperties.length > 0 then
      let cmap := getColormapName s ch
      if updateColorMapping ∨ getContrastLimits s ch = none then
        let lo := (sortInts colorProperties).headD 0
        let hi := intMaxD colorProperties 0
        let s1 := setContrastLimits s ch (some (lo, hi))
        (s1, mapPropertyWith cmap lo hi colorProperties)
      else
        let lims := (getContrastLimits s ch).getD (0, 0)
        (s, mapPropertyWith cmap lims.1 lims.2 colorProperties)
    else (s, [])
  else
    (s, [])

/-- Translation of `Shapes._refresh_color` (lines 1075-1101): when property
updates are enabled and the channel is in cycle or colormap mode, recompute
its colors and write them to the data view. -/
def refreshColor (s : ShapesLayer) (ch : Channel) (updateColorMapping : Bool) :
    ShapesLayer :=
  if s.updateProperties then
    let cmode := getColorModeField s ch
    if cmode = ColorMode.cycle ∨ cmode = ColorMode.colormap then
      let sc := mapColor s ch updateColorMapping
      setViewColors sc.1 ch sc.2
    else s
  else s

/-- Translation of `Shapes.refresh_colors` (lines 1057-1073). -/
def refreshColors (s : ShapesLayer) (updateColorMapping : Bool) : ShapesLayer :=
  refreshColor (refreshColor s Channel.face updateColorMapping)
    Channel.edge updateColorMapping

/-- Vertices of the displayed shapes, each tagged with its shape index
(`_data_view.displayed_vertices` zipped with `displayed_index`).  Modelled
from the spec: the displayed subset is the shapes matching the current slice
(here the per-shape `displayed` flag). -/
def displayedVertexPairs (s : ShapesLayer) : List (Nat × Pt) :=
  (List.range s.shapes.length).flatMap
    (fun i =>
      let sh := s.shapes.getD i defaultShape
      if sh.displayed then sh.data.map (fun p => (i, p)) else [])

/-- Axis-aligned 9-point box of a vertex set (`create_box`, in
`_shapes_utils`).  Modelled from the spec: corners and edge midpoints of the
bounding box of the two displayed dimensions, clockwise from the upper left,
then the center. -/
def createBox (vs : List Pt) : List Pt :=
  let xs := vs.map Prod.fst
  let ys := vs.map Prod.snd
  let x0 := xs.foldl min (xs.headD 0)
  let x1 := xs.foldl max (xs.headD 0)
  let y0 := ys.foldl min (ys.headD 0)
  let y1 := ys.foldl max (ys.headD 0)
  let xc := (x0 + x1) / 2
  let yc := (y0 + y1) / 2
  [(x0, y0), (xc, y0), (x1, y0), (x1, yc), (x1, y1), (xc, y1), (x0, y1),
    (x0, yc), (xc, yc)]

/-- Translation of `Shapes.interaction_box` (lines 1879-1926) for a set of
shape indices: `None` for an empty set, a copy of the single shape's cached
box for a singleton, otherwise `create_box` of the selected displayed
vertices; the rotation-handle point is then appended (its float geometry is
the state's `rotationHandle` function). -/
def interactionBox (s : ShapesLayer) (index : List Nat) : Option (List Pt) :=
  let box? : Option (List Pt) :=
    if index.length = 0 then none
    else if index.length = 1 then
      some (s.shapes.getD (index.headD 0) defaultShape).box9
    else
      some (createBox
        ((displayedVertexPairs s).filterMap
          (fun ip => if ip.1 ∈ index then some ip.2 else none)))
  match box? with
  | none => none
  | some b => some (b ++ [s.rotationHandle b])

/-- `Layer.block_update_properties` around a body that completes normally:
disable `_update_properties`, run the body, re-enable. -/
def blockUpdateProperties (body : ShapesLayer → ShapesLayer) (s : ShapesLayer) :
    ShapesLayer :=
  let s1 := { s with updateProperties := false }
  let s2 := body s1
  { s2 with updateProperties := true }

/-- Translation of the `current_edge_color` setter (lines 681-689): store the
standardized color; when property updates are enabled also write it to every
selected shape's row (events and thumbnail are display-only). -/
def setCurrentEdgeColor (s : ShapesLayer) (c : Color) : ShapesLayer :=
  let s1 := { s with currentEdgeColor := transformColor c }
  if s1.updateProperties then
    let arr := s1.selectedData.foldl
      (fun acc i => listSet acc i s1.currentEdgeColor) s1.edgeColorArr
    { s1 with edgeColorArr := arr }
  else s1

/-- Translation of the `current_face_color` setter (lines 697-705). -/
def setCurrentFaceColor (s : ShapesLayer) (c : Color) : ShapesLayer :=
  let s1 := { s with currentFaceColor := transformColor c }
  if s1.updateProperties then
    let arr := s1.selectedData.foldl
      (fun acc i => listSet acc i s1.currentFaceColor) s1.faceColorArr
    { s1 with faceColorArr := arr }
  else s1

/-- Translation of the `current_edge_width` setter (lines 667-673): store the
width; when property updates are enabled also write it to every selected
shape. -/
def setCurrentEdgeWidth (s : ShapesLayer) (w : Int) : ShapesLayer :=
  let s1 := { s with currentEdgeWidth := w }
  if s1.updateProperties then
    let shs := s1.selectedData.foldl
      (fun acc i => listModify acc i (fun sh => { sh with edgeWidth := w }))
      s1.shapes
    { s1 with shapes := shs }
  else s1

/-- Translation of the `current_properties` setter (lines 712-727): store the
dict; when property updates are enabled, a selection exists and the mode is
SELECT or PAN_ZOOM, write the current value into every selected shape's row
of every property and refresh colors. -/
def setCurrentProperties (s : ShapesLayer) (cp : List (String × List Int)) :
    ShapesLayer :=
  let s1 := { s with currentProperties := cp }
  if s1.updateProperties ∧ s1.selectedData.length > 0 ∧
      (s1.mode = Mode.select ∨ s1.mode = Mode.panZoom) then
    let newProps := s1.properties.map (fun kv =>
      let vals := s1.selectedData.foldl
        (fun acc i => listSet acc i (((alLookup cp kv.1).getD []).headD 0))
        kv.2.values
      (kv.1, { kv.2 with values := vals }))
    refreshColors { s1 with properties := newProps } false
  else s1

/-- Translation of the `selected_data` setter (lines 974-1016): store the
selection set, recompute `_selected_box`, and, for a non-empty selection,
seed each `current_*` attribute with the selection's common value when it is
uniform (each under `block_update_properties`). -/
def setSelectedData (s : ShapesLayer) (sel0 : List Nat) : ShapesLayer :=
  let sel := sel0.dedup
  let s1 := { s with selectedData := sel }
  let s1 := { s1 with selectedBox := interactionBox s1 sel }
  if sel.length > 0 then
    let faceColors := uniqueColors (sel.map (fun i => s1.faceColorArr.getD i cWhite))
    let s2 := if faceColors.length = 1 then
        blockUpdateProperties (fun t => setCurrentFaceColor t (faceColors.headD cWhite)) s1
      else s1
    let edgeColors := uniqueColors (sel.map (fun i => s2.edgeColorArr.getD i cWhite))
    let s3 := if edgeColors.length = 1 then
        blockUpdateProperties (fun t => setCurrentEdgeColor t (edgeColors.headD cWhite)) s2
      else s2
    let widths := (sel.map (fun i => (s3.shapes.getD i defaultShape).edgeWidth)).dedup
    let s4 := if widths.length = 1 then
        blockUpdateProperties (fun t => setCurrentEdgeWidth t (widths.headD 0)) s3
      else s3
    let uprops := s4.properties.map
      (fun kv => (kv.1, npUnique (sel.map (fun i => kv.2.values.getD i 0))))
    if uprops.all (fun kv => kv.2.length = 1) then
      blockUpdateProperties (fun t => setCurrentProperties t uprops) s4
    else s4
  else s1

/-- Removal of one shape from the data view (`ShapeList.remove`).  Modelled
from the spec: deletes the shape at the index, shifting later indices down
(the parallel `_z_index` entry goes with the record).  In this version of
the code the caller `remove_selected` deletes the corresponding rows of
`_edge_color` and `_face_color` itself (lines 2154-2159), so the view's
`remove` leaves the color arrays to the caller. -/
def shapeListRemove (s : ShapesLayer) (i : Nat) : ShapesLayer :=
  { s with shapes := s.shapes.eraseIdx i }

/-- Geometry replacement on one shape (`ShapeList.edit`).  Modelled from the
spec: replaces the vertex data, preserving style. -/
def shapeListEdit (s : ShapesLayer) (i : Nat) (vs : List Pt) : ShapesLayer :=
  { s with shapes := listModify s.shapes i (fun sh => { sh with data := vs }) }

/-- One trim block of `Shapes._finish_drawing` (lines 2090-2095 for
ADD_PATH with threshold 2, lines 2096-2101 for ADD_POLYGON with threshold
3): when a shape of the given mode is being created, drop its last
in-progress vertex, or remove it from the view when it has no more than
`minPts` vertices. -/
def finishTrim (t : ShapesLayer) (index : Option Nat) (m : Mode)
    (minPts : Nat) : ShapesLayer :=
  if t.isCreating = true ∧ t.mode = m then
    match index with
    | some i =>
      let vertices := (t.shapes.getD i defaultShape).data
      if vertices.length ≤ minPts then shapeListRemove t i
      else shapeListEdit t i vertices.dropLast
    | none => t
  else t

/-- Translation of `Shapes._finish_drawing` (lines 2079-2103): save the
moving index, clear the drag/selection/transient fields (the
`selected_data = set()` assignment runs the full setter), then run the two
structurally identical trim blocks — for an in-progress Path (threshold 2)
and an in-progress Polygon (threshold 3) — and clear `_is_creating`
(`_update_dims` touches only display state). -/
def finishDrawing (s : ShapesLayer) : ShapesLayer :=
  let index := s.movingValue.1
  let s1 := { s with isMoving := false }
  let s2 := setSelectedData s1 []
  let s3 := { s2 with dragStart := none, dragBox := none, isSelecting := false,
                      fixedVertex := none, valueField := (none, none),
                      movingValue := (none, none) }
  let s4 := finishTrim s3 index Mode.addPath 2
  let s5 := finishTrim s4 index Mode.addPolygon 3
  { s5 with isCreating := false }

/-- The draw-continuation modes of the `mode` setter (lines 1469-1474). -/
def drawModes : List Mode :=
  [Mode.select, Mode.direct, Mode.vertexInsert, Mode.vertexRemove]

/-- Translation of the `mode` setter (lines 1392-1484), with a Boolean
recording whether `_finish_drawing` was invoked: coerce the requested mode to
PAN_ZOOM when the layer is not editable; return immediately when the
effective mode equals the current one; otherwise switch the mode (the
callback, cursor and help updates are UI wiring) and, inside
`block_thumbnail_update`, finalize drawing unless both the old and the new
mode are draw-continuation modes (in which case only `refresh` runs). -/
def setModeAux (s : ShapesLayer) (requested : Mode) : ShapesLayer × Bool :=
  let m := if ¬ s.editable then Mode.panZoom else requested
  if m = s.mode then (s, false)
  else
    let oldMode := s.mode
    let s1 := { s with mode := m }
    let s2 := { s1 with allowThumbnailUpdate := false }
    let sf :=
      if ¬ (m ∈ drawModes ∧ oldMode ∈ drawModes) then (finishDrawing s2, true)
      else (s2, false)
    ({ sf.1 with allowThumbnailUpdate := true }, sf.2)

/-- The `mode` setter as a state transformer. -/
def setMode (s : ShapesLayer) (requested : Mode) : ShapesLayer :=
  (setModeAux s requested).1

/-- Translation of `Shapes._set_editable` (lines 1486-1495): with no
argument, derive editability from the display dimensionality (3D is not
editable); then force the mode to PAN_ZOOM whenever the layer is not
editable (`self.mode = ...` runs the full mode setter). -/
def setEditable (s : ShapesLayer) (editable : Option Bool) : ShapesLayer :=
  let s1 := match editable with
    | none => { s with editable := decide (s.ndisplay ≠ 3) }
    | some _ => s
  if ¬ s1.editable then setMode s1 Mode.panZoom else s1

/-- Execution of a `with self.block_thumbnail_update():` block
(lines 2105-2110).  The body runs on the state and reports whether it raised
(`true` in the second component).  The context manager is a generator with a
bare `yield` and no `try/finally`, so when the body raises, the exception
propagates out of the `yield` and the re-enable statement after it never
runs. -/
def runBlockThumbnailUpdate (body : ShapesLayer → ShapesLayer × Bool)
    (s : ShapesLayer) : ShapesLayer × Bool :=
  let s1 := { s with allowThumbnailUpdate := false }
  let r := body s1
  if r.2 then (r.1, true)
  else ({ r.1 with allowThumbnailUpdate := true }, false)

/-- Errors raised by `_set_color_mode`: the `ValueError` for a cycle or
colormap request with no properties at all, and the `TypeError` for a
colormap request on a non-numeric property. -/
inductive ColorModeError
  | noProperties | propertyNotNumeric
deriving DecidableEq, Repr

/-- Translation of `Shapes._set_color_mode` (lines 886-933).  Returns the
state after the call (a raise keeps the mutations already made, as in
Python), the raised error if any, and whether `warnings.warn` ran.  DIRECT
just stores the mode; CYCLE/COLORMAP first auto-select the first property
when none is designated (warning) or raise when there are no properties,
then COLORMAP raises on a non-numeric designated property, and finally the
mode is stored and colors are refreshed. -/
def setColorMode (s : ShapesLayer) (ch : Channel) (cm : ColorMode) :
    ShapesLayer × Option ColorModeError × Bool :=
  match cm with
  | ColorMode.direct => (setColorModeField s ch cm, none, false)
  | _ =>
    let step1 : ShapesLayer × Option ColorModeError × Bool :=
      if getColorProp s ch = "" then
        match s.properties.head? with
        | some kv => (setColorProp s ch kv.1, none, true)
        | none => (s, some ColorModeError.noProperties, false)
      else (s, none, false)
    match step1 with
    | (s1, some e, w) => (s1, some e, w)
    | (s1, none, w) =>
      let numeric := match propsLookup s1.properties (getColorProp s1 ch) with
        | some a => a.isNumeric
        | none => false
      if cm = ColorMode.colormap ∧ numeric = false then
        (s1, some ColorModeError.propertyNotNumeric, w)
      else
        (refreshColors (setColorModeField s1 ch cm) false, none, w)

/-- The `ValueError` of `_validate_properties` for a length mismatch. -/
inductive PropError
  | lengthMismatch
deriving DecidableEq, Repr

/-- Translation of `Shapes._validate_properties` (lines 1822-1837): walk the
supplied dict and raise on the first value array whose length differs from
the shape count (the `np.asarray` coercion is the identity here). -/
def validateProperties : Props → Nat → Except PropError Props
  | [], _ => Except.ok []
  | (k, v) :: rest, n =>
    if v.values.length ≠ n then Except.error PropError.lengthMismatch
    else
      match validateProperties rest n with
      | Except.error e => Except.error e
      | Except.ok r => Except.ok ((k, v) :: r)

/-- Translation of the `properties` setter (lines 608-631): validate the
supplied dict against the current shape count — the raise happens before
`self._properties` is assigned, leaving the store untouched — then assign
it and drop a designated face/edge color property that is no longer present
(with a warning; `refresh_text` and events are display-only). -/
def setProperties (s : ShapesLayer) (props : Props) :
    ShapesLayer × Option PropError :=
  match validateProperties props s.shapes.length with
  | Except.error e => (s, some e)
  | Except.ok v =>
    let s1 := { s with properties := v }
    let s2 := if s1.faceColorProperty ≠ "" ∧
        (propsLookup s1.properties s1.faceColorProperty).isNone then
        { s1 with faceColorProperty := "" }
      else s1
    let s3 := if s2.edgeColorProperty ≠ "" ∧
        (propsLookup s2.properties s2.edgeColorProperty).isNone then
        { s2 with edgeColorProperty := "" }
      else s2
    (s3, none)

/-- Translation of `Shapes._get_new_shape_color` (lines 1233-1283): the color
rows for `adding` new shapes.  DIRECT tiles the current color; CYCLE looks
the current property value up in the cycle map, drawing a new cycle color
for an unseen value; COLORMAP maps the current property value through the
channel's colormap and contrast limits. -/
def getNewShapeColor (s : ShapesLayer) (adding : Nat) (ch : Channel) :
    ShapesLayer × List Color :=
  let cmode := getColorModeField s ch
  match cmode with
  | ColorMode.direct =>
    let cur := match ch with
      | Channel.edge => s.currentEdgeColor
      | Channel.face => s.currentFaceColor
    (s, List.replicate adding cur)
  | ColorMode.cycle =>
    let propertyName := getColorProp s ch
    let v := ((alLookup s.currentProperties propertyName).getD []).headD 0
    let m := getCycleMap s ch
    let sm :=
      if (cmLookup m v).isNone then
        let cc := (getColorCycle s ch).next
        (setColorCycle (setCycleMap s ch (cmInsert m v (transformColor cc.1)))
          ch cc.2, cmInsert m v (transformColor cc.1))
      else (s, m)
    (sm.1, List.replicate adding ((cmLookup sm.2 v).getD cWhite))
  | ColorMode.colormap =>
    let propertyName := getColorProp s ch
    let v := ((alLookup s.currentProperties propertyName).getD []).headD 0
    let lims := (getContrastLimits s ch).getD (0, 0)
    (s, List.replicate adding
      (Color.mapped (getColormapName s ch) lims.1 lims.2 v))

/-- Construction of one shape object (`shape_cls(d, edge_width=..,
z_index=..)` in `_add_shapes_to_view`).  Modelled from the spec: the record
carries the vertex data and style; the cached box is computed from the data
and a new shape lies in the current slice. -/
def mkShape (kind : ShapeKind) (d : List Pt) (ew z : Int) : ShapeRec :=
  { kind := kind, data := d, edgeWidth := ew, zIndex := z,
    box9 := createBox d, displayed := true }

/-- Appending one shape to the data view (`ShapeList.add`).  Modelled from
the spec: appends the shape record and one edge and face color row, keeping
the arrays index-aligned. -/
def shapeListAdd (s : ShapesLayer) (sh : ShapeRec) (ec fc : Color) :
    ShapesLayer :=
  { s with shapes := s.shapes ++ [sh],
           edgeColorArr := s.edgeColorArr ++ [ec],
           faceColorArr := s.faceColorArr ++ [fc] }

/-- Translation of `Shapes._add_shapes` (lines 1696-1803) together with
`_add_shapes_to_view` (1805-1820): resolve defaulted style arguments
(including the falsy-z resolution of lines 1759-1762), broadcast the colors
to the shape count, and append one constructed shape per data element with
its color rows (`z_refresh` only re-sorts rendering order). -/
def addShapesUnder (s : ShapesLayer) (data : List (List Pt)) (kind : ShapeKind)
    (ewArg : Option Int) (ecArg fcArg : Option (List Color))
    (zArg : Option Int) : ShapesLayer :=
  let ew := ewArg.getD s.currentEdgeWidth
  let ec := ecArg.getD [s.currentEdgeColor]
  let fc := fcArg.getD [s.currentFaceColor]
  let z := resolveZIndex zArg (dataViewZIndex s)
  if data.length > 0 then
    let tec := normalizeAndBroadcastColors data.length ec
    let tfc := normalizeAndBroadcastColors data.length fc
    (data.zip (tec.zip tfc)).foldl
      (fun acc dcc => shapeListAdd acc (mkShape kind dcc.1 ew z) dcc.2.1 dcc.2.2)
      s
  else s

/-- Resolution of a color argument of `Shapes.add`: `None` draws the colors
for the new shapes from `_get_new_shape_color` (lines 1554-1561), an explicit
argument is passed through. -/
def resolveColorArg (s : ShapesLayer) (n : Nat) (ch : Channel) :
    Option (List Color) → ShapesLayer × List Color
  | none => getNewShapeColor s n ch
  | some c => (s, c)

/-- The property padding of `Shapes.add` (lines 1567-1591): compare the new
total shape count against the first property array's length, pad every
property array with repeats of the current value when short, truncate when
long. -/
def padProperties (s1 : ShapesLayer) (nNew : Nat) : ShapesLayer :=
  let nPropValues := match s1.properties.head? with
    | some kv => kv.2.values.length
    | none => 0
  let total := nNew + s1.shapes.length
  let s2 := if total > nPropValues then
      let nAdd := total - nPropValues
      let padded : Props := s1.properties.map (fun kv =>
        let pv := ((alLookup s1.currentProperties kv.1).getD []).headD 0
        (kv.1, { kv.2 with values := kv.2.values ++ List.replicate nAdd pv }))
      { s1 with properties := padded }
    else s1
  if total < nPropValues then
    let truncated : Props := s2.properties.map (fun kv =>
      (kv.1, { kv.2 with values := kv.2.values.take total }))
    { s2 with properties := truncated }
  else s2

/-- Translation of `Shapes.add` (lines 1497-1600): resolve the edge width and
the color arguments (drawing defaults from `_get_new_shape_color`), resolve
the z-index against the data view (lines 1562-1563, where an explicit `0` is
falsy), then for a non-empty batch pad every property array (repeating the
current value) — or truncate — to the new total shape count
(`padProperties`, lines 1567-1591), and hand off to `_add_shapes`. -/
def shapesAdd (s : ShapesLayer) (data : List (List Pt)) (kind : ShapeKind)
    (ewArg : Option Int) (ecArg fcArg : Option (List Color))
    (zArg : Option Int) : ShapesLayer :=
  let ew := ewArg.getD s.currentEdgeWidth
  let nNew := data.length
  let sec := resolveColorArg s nNew Channel.edge ecArg
  let sfc := resolveColorArg sec.1 nNew Channel.face fcArg
  let s1 := sfc.1
  let z := resolveZIndex zArg (dataViewZIndex s1)
  if nNew > 0 then
    addShapesUnder (padProperties s1 nNew) data kind
      (some ew) (some sec.2) (some sfc.2) (some z)
  else s1

/-- Descending sort of the selected indices (`sorted(index, reverse=True)`). -/
def sortedDesc (l : List Nat) : List Nat :=
  (List.insertionSort (· ≤ ·) l).reverse

/-- Translation of `Shapes.remove_selected` (lines 2141-2161): remove each
selected shape from the data view in descending index order, then delete the
selected rows from every property array and from the view's edge and face
color arrays, clear the selection and finalize drawing (`text.remove` keeps
the unmodelled text manager aligned). -/
def removeSelected (s : ShapesLayer) : ShapesLayer :=
  let index := s.selectedData
  let toRemove := sortedDesc index
  let s1 := toRemove.foldl (fun acc i => shapeListRemove acc i) s
  let s2 := if index.length > 0 then
      let newProps : Props := s1.properties.map (fun kv =>
        (kv.1, { kv.2 with values := npDelete kv.2.values index }))
      { s1 with properties := newProps,
                edgeColorArr := npDelete s1.edgeColorArr index,
                faceColorArr := npDelete s1.faceColorArr index }
    else s1
  let s3 := setSelectedData s2 []
  finishDrawing s3

/-- One public mutation of the shape collection, for stating the
invariant-preservation claim over arbitrary operation sequences. -/
inductive ShapeOp
  | add (data : List (List Pt)) (kind : ShapeKind) (ewArg : Option Int)
      (ecArg fcArg : Option (List Color)) (zArg : Option Int)
  | removeSelected

/-- Apply one operation. -/
def applyOp (s : ShapesLayer) : ShapeOp → ShapesLayer
  | ShapeOp.add d k ew ec fc z => shapesAdd s d k ew ec fc z
  | ShapeOp.removeSelected => removeSelected s

/-- Apply a sequence of operations, first to last. -/
def applyOps (s : ShapesLayer) (ops : List ShapeOp) : ShapesLayer :=
  ops.foldl applyOp s

/-- One click of the ADD_PATH / ADD_POLYGON tool.  Modelled from the spec:
the click handler `add_path_polygon` (in `_shapes_mouse_bindings`, not under
`src/`) — §4.5 "each click appends a vertex"; the first click starts a new
in-progress shape at the end of the collection, records its index in
`_moving_value` and sets `_is_creating`. -/
def addPathClick (s : ShapesLayer) (p : Pt) : ShapesLayer :=
  if s.isCreating then
    match s.movingValue.1 with
    | some i => shapeListEdit s i ((s.shapes.getD i defaultShape).data ++ [p])
    | none => s
  else
    let kind := if s.mode = Mode.addPolygon then ShapeKind.polygon
      else ShapeKind.path
    let i := s.shapes.length
    let s1 := shapeListAdd s (mkShape kind [p] s.currentEdgeWidth 0)
      s.currentEdgeColor s.currentFaceColor
    { s1 with isCreating := true, movingValue := (some i, none),
              selectedData := [i] }

/-- A freshly initialized empty layer (`Shapes.__init__` with no data): 2D
display, editable, PAN_ZOOM mode, no shapes, no properties, direct color
modes, the default two-color cycle, and both scoped flags enabled. -/
def initLayer : ShapesLayer :=
  { shapes := [], edgeColorArr := [], faceColorArr := [], properties := [],
    mode := Mode.panZoom, editable := true, ndisplay := 2,
    isMoving := false, isCreating := false, isSelecting := false,
    selectedData := [], selectedBox := none, dragStart := none,
    dragBox := none, fixedVertex := none, valueField := (none, none),
    movingValue := (none, none), currentEdgeColor := Color.rgba 0 0 0 1,
    currentFaceColor := cWhite, currentEdgeWidth := 1,
    currentProperties := [], updateProperties := true,
    allowThumbnailUpdate := true, edgeColorMode := ColorMode.direct,
    faceColorMode := ColorMode.direct, edgeColorProperty := "",
    faceColorProperty := "",
    edgeColorCycle := { elems := [Color.rgba 1 0 1 1, Color.rgba 0 1 0 1], pos := 0 },
    faceColorCycle := { elems := [Color.rgba 1 0 1 1, Color.rgba 0 1 0 1], pos := 0 },
    edgeColorCycleMap := [], faceColorCycleMap := [],
    edgeContrastLimits := none, faceContrastLimits := none,
    edgeColormapName := "viridis", faceColormapName := "viridis",
    rotationHandle := fun b => b.headD (0, 0) }

/-- A layer holding one rectangle with an explicit z-index of 0 (concrete
state for evaluating the z-index resolution). -/
def zLayer : ShapesLayer :=
  { initLayer with shapes := [mkShape ShapeKind.rectangle [(0, 0), (1, 1)] 1 0],
                   edgeColorArr := [cWhite], faceColorArr := [cWhite] }

/-- A layer in ADD_PATH mode with an in-progress 3-vertex path being created
(the state reached after three clicks of the path tool). -/
def c1Layer : ShapesLayer :=
  { initLayer with
    shapes := [mkShape ShapeKind.path [(0, 0), (1, 0), (1, 1)] 1 0],
    edgeColorArr := [cWhite], faceColorArr := [cWhite],
    mode := Mode.addPath, isCreating := true,
    movingValue := (some 0, none) }

/-- An empty layer switched to the ADD_PATH tool. -/
def c1StartLayer : ShapesLayer := { initLayer with mode := Mode.addPath }

/-- A layer with one non-numeric property `label` and one numeric property
`size`, three shapes, and a seeded edge color cycle map (concrete state for
the color-mode and color-cycle claims). -/
def propsLayer : ShapesLayer :=
  { initLayer with
    shapes := [mkShape ShapeKind.rectangle [(0, 0), (1, 1)] 1 0,
               mkShape ShapeKind.rectangle [(2, 2), (3, 3)] 1 1,
               mkShape ShapeKind.rectangle [(4, 4), (5, 5)] 1 2],
    edgeColorArr := [cWhite, cWhite, Color.rgba 1 0 0 1],
    faceColorArr := [cWhite, cWhite, cWhite],
    properties := [("label", { isNumeric := false, values := [7, 7, 8] }),
                   ("size", { isNumeric := true, values := [1, 2, 3] })],
    currentProperties := [("label", [7]), ("size", [1])],
    edgeColorMode := ColorMode.cycle, edgeColorProperty := "label",
    edgeColorCycleMap := [(7, Color.rgba 1 0 1 1)],
    selectedData := [0, 1] }

/-- Index-synchronization of the parallel per-shape arrays: the edge and
face color row counts equal the shape count and every property array has one
entry per shape. -/
def SyncInv (s : ShapesLayer) : Prop :=
  s.edgeColorArr.length = s.shapes.length ∧
  s.faceColorArr.length = s.shapes.length ∧
  ∀ kv ∈ s.properties, kv.2.values.length = s.shapes.length

/-- Well-formedness carried through `add` / `remove_selected` sequences: the
parallel arrays are synchronized, no in-progress shape is being drawn (the
mouse handlers that set `_is_creating` are not among the operations), and
the selection is a valid set of shape indices. -/
def LayerWF (s : ShapesLayer) : Prop :=
  SyncInv s ∧ s.isCreating = false ∧ s.selectedData.Nodup ∧
  ∀ i ∈ s.selectedData, i < s.shapes.length

end Napari

namespace Napari

/-! Helper lemmas shared by the claim theorems. -/

theorem setSelectedData_nil (s : ShapesLayer) :
    setSelectedData s [] = { s with selectedData := [], selectedBox := none } := by
  simp [setSelectedData, interactionBox]

theorem finishDrawing_not_creating (s : ShapesLayer) (h : s.isCreating = false) :
    finishDrawing s =
      { s with isMoving := false, selectedData := [], selectedBox := none,
               dragStart := none, dragBox := none, isSelecting := false,
               fixedVertex := none, valueField := (none, none),
               movingValue := (none, none), isCreating := false } := by
  simp [finishDrawing, finishTrim, setSelectedData_nil, h]

theorem finishDrawing_frame (s : ShapesLayer) :
    (finishDrawing s).mode = s.mode ∧ (finishDrawing s).editable = s.editable ∧
    (finishDrawing s).edgeColorArr = s.edgeColorArr ∧
    (finishDrawing s).faceColorArr = s.faceColorArr ∧
    (finishDrawing s).properties = s.properties ∧
    (finishDrawing s).selectedData = [] ∧
    (finishDrawing s).isCreating = false := by
  unfold finishDrawing finishTrim
  simp only [setSelectedData_nil]
  refine ⟨?_, ?_, ?_, ?_, ?_, ?_, ?_⟩ <;>
    (repeat' split) <;> simp [shapeListRemove, shapeListEdit]

theorem resolveZIndex_zero (l : List Int) :
    resolveZIndex (some 0) l = resolveZIndex none l := by
  simp [resolveZIndex]

theorem resolveZIndex_idem (zArg : Option Int) (l : List Int) :
    resolveZIndex (some (resolveZIndex zArg l)) l = resolveZIndex zArg l := by
  rcases zArg with _ | v <;> simp [resolveZIndex] <;> split_ifs <;> simp_all

theorem le_foldl_max (l : List Int) (d : Int) : d ≤ l.foldl max d := by
  induction l generalizing d with
  | nil => simp
  | cons a l ih => exact le_trans (le_max_left d a) (ih (max d a))

theorem mem_le_foldl_max (l : List Int) (d x : Int) (hx : x ∈ l) :
    x ≤ l.foldl max d := by
  induction l generalizing d with
  | nil => cases hx
  | cons a l ih =>
    rcases List.mem_cons.mp hx with rfl | hmem
    · exact le_trans (le_max_right d x) (le_foldl_max l (max d x))
    · exact ih (max d a) hmem


theorem mkShape_zIndex (k : ShapeKind) (d : List Pt) (ew z : Int) :
    (mkShape k d ew z).zIndex = z := rfl

theorem normalizeAndBroadcastColors_length (n : Nat) (cs : List Color) :
    (normalizeAndBroadcastColors n cs).length = n := by
  unfold normalizeAndBroadcastColors
  split <;> simp_all

theorem foldl_shapeListAdd_eq (l : List (List Pt × Color × Color))
    (k : ShapeKind) (ew z : Int) : ∀ s : ShapesLayer,
    l.foldl (fun acc dcc => shapeListAdd acc (mkShape k dcc.1 ew z) dcc.2.1 dcc.2.2) s =
      { s with shapes := s.shapes ++ l.map (fun dcc => mkShape k dcc.1 ew z),
               edgeColorArr := s.edgeColorArr ++ l.map (fun dcc => dcc.2.1),
               faceColorArr := s.faceColorArr ++ l.map (fun dcc => dcc.2.2) } := by
  induction l with
  | nil => intro s; simp
  | cons a l ih =>
    intro s
    rw [List.foldl_cons, ih]
    simp [shapeListAdd]

theorem zip_map_g1 {α β γ : Type _} (g : α → γ) :
    ∀ (l₁ : List α) (l₂ : List β), l₂.length = l₁.length →
      (l₁.zip l₂).map (fun p => g p.1) = l₁.map g
  | [], _, _ => by simp
  | a :: t, [], h => by simp at h
  | a :: t, b :: u, h => by
      simp only [List.zip_cons_cons, List.map_cons]
      rw [zip_map_g1 g t u (by simpa using h)]

theorem zip_map_sel21 {α β γ : Type _} :
    ∀ (l₁ : List α) (l₂ : List β) (l₃ : List γ), l₂.length = l₁.length →
      l₃.length = l₂.length →
      (l₁.zip (l₂.zip l₃)).map (fun p => p.2.1) = l₂
  | [], l₂, l₃, h2, _ => by
      simp only [List.length_nil, List.length_eq_zero] at h2
      simp [h2]
  | a :: t, [], l₃, h2, _ => by simp at h2
  | a :: t, b :: u, [], _, h3 => by simp at h3
  | a :: t, b :: u, c :: v, h2, h3 => by
      simp only [List.zip_cons_cons, List.map_cons]
      rw [zip_map_sel21 t u v (by simpa using h2) (by simpa using h3)]

theorem zip_map_sel22 {α β γ : Type _} :
    ∀ (l₁ : List α) (l₂ : List β) (l₃ : List γ), l₂.length = l₁.length →
      l₃.length = l₂.length →
      (l₁.zip (l₂.zip l₃)).map (fun p => p.2.2) = l₃
  | [], l₂, l₃, h2, h3 => by
      simp only [List.length_nil, List.length_eq_zero] at h2
      subst h2
      simp only [List.length_nil, List.length_eq_zero] at h3
      simp [h3]
  | a :: t, [], l₃, h2, _ => by simp at h2
  | a :: t, b :: u, [], _, h3 => by simp at h3
  | a :: t, b :: u, c :: v, h2, h3 => by
      simp only [List.zip_cons_cons, List.map_cons]
      rw [zip_map_sel22 t u v (by simpa using h2) (by simpa using h3)]

theorem addShapesUnder_eq (s : ShapesLayer) (data : List (List Pt))
    (k : ShapeKind) (ewArg : Option Int) (ecArg fcArg : Option (List Color))
    (zArg : Option Int) :
    addShapesUnder s data k ewArg ecArg fcArg zArg =
      { s with
        shapes := s.shapes ++ data.map (fun dd =>
          mkShape k dd (ewArg.getD s.currentEdgeWidth)
            (resolveZIndex zArg (dataViewZIndex s))),
        edgeColorArr := s.edgeColorArr ++
          normalizeAndBroadcastColors data.length (ecArg.getD [s.currentEdgeColor]),
        faceColorArr := s.faceColorArr ++
          normalizeAndBroadcastColors data.length (fcArg.getD [s.currentFaceColor]) } := by
  have hec := normalizeAndBroadcastColors_length data.length
    (ecArg.getD [s.currentEdgeColor])
  have hfc := normalizeAndBroadcastColors_length data.length
    (fcArg.getD [s.currentFaceColor])
  unfold addShapesUnder
  split_ifs with h
  · rw [foldl_shapeListAdd_eq]
    congr 1
    · refine congrArg (s.shapes ++ ·) ?_
      apply zip_map_g1 (fun dd => mkShape k dd (ewArg.getD s.currentEdgeWidth)
        (resolveZIndex zArg (dataViewZIndex s)))
      rw [List.length_zip, hec, hfc]
      simp
    · refine congrArg (s.edgeColorArr ++ ·) ?_
      apply zip_map_sel21
      · rw [hec]
      · rw [hec, hfc]
    · refine congrArg (s.faceColorArr ++ ·) ?_
      apply zip_map_sel22
      · rw [hec]
      · rw [hec, hfc]
  · have hd : data = [] := List.length_eq_zero.mp (by omega)
    subst hd
    simp only [normalizeAndBroadcastColors, List.length_nil]
    split_ifs <;> simp_all

theorem finishDrawing_mode (s : ShapesLayer) : (finishDrawing s).mode = s.mode :=
  (finishDrawing_frame s).1

theorem finishDrawing_editable (s : ShapesLayer) :
    (finishDrawing s).editable = s.editable :=
  (finishDrawing_frame s).2.1

theorem finishDrawing_edgeColorArr (s : ShapesLayer) :
    (finishDrawing s).edgeColorArr = s.edgeColorArr :=
  (finishDrawing_frame s).2.2.1

theorem finishDrawing_faceColorArr (s : ShapesLayer) :
    (finishDrawing s).faceColorArr = s.faceColorArr :=
  (finishDrawing_frame s).2.2.2.1

theorem finishDrawing_properties (s : ShapesLayer) :
    (finishDrawing s).properties = s.properties :=
  (finishDrawing_frame s).2.2.2.2.1

theorem finishDrawing_selectedData (s : ShapesLayer) :
    (finishDrawing s).selectedData = [] :=
  (finishDrawing_frame s).2.2.2.2.2.1

theorem finishDrawing_isCreating (s : ShapesLayer) :
    (finishDrawing s).isCreating = false :=
  (finishDrawing_frame s).2.2.2.2.2.2

theorem setMode_mode_not_editable (s : ShapesLayer) (r : Mode)
    (h : s.editable = false) : (setMode s r).mode = Mode.panZoom := by
  unfold setMode setModeAux
  dsimp only
  simp only [h, Bool.false_eq_true, not_false_iff, ite_true]
  split
  · rename_i heq
    exact heq.symm
  · split <;> simp [finishDrawing_mode]

theorem setMode_editable (s : ShapesLayer) (r : Mode) :
    (setMode s r).editable = s.editable := by
  unfold setMode setModeAux
  dsimp only
  (repeat' split) <;> simp_all [finishDrawing_editable]

theorem getNewShapeColor_frame (s : ShapesLayer) (n : Nat) (ch : Channel) :
    (getNewShapeColor s n ch).1.shapes = s.shapes ∧
    (getNewShapeColor s n ch).1.edgeColorArr = s.edgeColorArr ∧
    (getNewShapeColor s n ch).1.faceColorArr = s.faceColorArr ∧
    (getNewShapeColor s n ch).1.properties = s.properties ∧
    (getNewShapeColor s n ch).1.currentEdgeWidth = s.currentEdgeWidth ∧
    (getNewShapeColor s n ch).1.currentEdgeColor = s.currentEdgeColor ∧
    (getNewShapeColor s n ch).1.currentFaceColor = s.currentFaceColor ∧
    (getNewShapeColor s n ch).1.isCreating = s.isCreating ∧
    (getNewShapeColor s n ch).1.selectedData = s.selectedData := by
  unfold getNewShapeColor
  cases hcm : getColorModeField s ch <;> cases ch <;>
    dsimp only <;> simp_all [setColorCycle, setCycleMap] <;>
    (repeat' split) <;> simp_all [setColorCycle, setCycleMap]

theorem resolveColorArg_frame (s : ShapesLayer) (n : Nat) (ch : Channel)
    (arg : Option (List Color)) :
    (resolveColorArg s n ch arg).1.shapes = s.shapes ∧
    (resolveColorArg s n ch arg).1.edgeColorArr = s.edgeColorArr ∧
    (resolveColorArg s n ch arg).1.faceColorArr = s.faceColorArr ∧
    (resolveColorArg s n ch arg).1.properties = s.properties ∧
    (resolveColorArg s n ch arg).1.currentEdgeWidth = s.currentEdgeWidth ∧
    (resolveColorArg s n ch arg).1.isCreating = s.isCreating ∧
    (resolveColorArg s n ch arg).1.selectedData = s.selectedData := by
  cases arg <;> simp [resolveColorArg, getNewShapeColor_frame s n ch]

theorem padProperties_frame (t : ShapesLayer) (nNew : Nat) :
    (padProperties t nNew).shapes = t.shapes ∧
    (padProperties t nNew).edgeColorArr = t.edgeColorArr ∧
    (padProperties t nNew).faceColorArr = t.faceColorArr ∧
    (padProperties t nNew).isCreating = t.isCreating ∧
    (padProperties t nNew).selectedData = t.selectedData ∧
    (padProperties t nNew).currentEdgeWidth = t.currentEdgeWidth := by
  unfold padProperties
  dsimp only
  refine ⟨?_, ?_, ?_, ?_, ?_, ?_⟩ <;> (repeat' split) <;> rfl

theorem shapesAdd_core (s : ShapesLayer) (data : List (List Pt)) (k : ShapeKind)
    (ewArg : Option Int) (ecArg fcArg : Option (List Color)) (zArg : Option Int) :
    (shapesAdd s data k ewArg ecArg fcArg zArg).shapes =
      s.shapes ++ data.map (fun dd =>
        mkShape k dd (ewArg.getD s.currentEdgeWidth)
          (resolveZIndex zArg (dataViewZIndex s))) ∧
    (shapesAdd s data k ewArg ecArg fcArg zArg).isCreating = s.isCreating ∧
    (shapesAdd s data k ewArg ecArg fcArg zArg).selectedData = s.selectedData ∧
    (shapesAdd s data k ewArg ecArg fcArg zArg).edgeColorArr.length =
      s.edgeColorArr.length + data.length ∧
    (shapesAdd s data k ewArg ecArg fcArg zArg).faceColorArr.length =
      s.faceColorArr.length + data.length := by
  obtain ⟨a1, a2, a3, a4, a5, a6, a7⟩ :=
    resolveColorArg_frame s data.length Channel.edge ecArg
  obtain ⟨b1, b2, b3, b4, b5, b6, b7⟩ :=
    resolveColorArg_frame (resolveColorArg s data.length Channel.edge ecArg).1
      data.length Channel.face fcArg
  unfold shapesAdd
  dsimp only
  split
  · obtain ⟨p1, p2, p3, p4, p5, p6⟩ :=
      padProperties_frame (resolveColorArg
        (resolveColorArg s data.length Channel.edge ecArg).1
        data.length Channel.face fcArg).1 data.length
    refine ⟨?_, ?_, ?_, ?_, ?_⟩ <;>
      (repeat' split) <;>
      simp_all [addShapesUnder_eq, dataViewZIndex, resolveZIndex_idem,
        normalizeAndBroadcastColors_length]
  · rename_i hz
    have hd : data = [] := List.length_eq_zero.mp (by omega)
    subst hd
    simp_all

/-! Claim theorems. -/

/-- C2: the claim states that `block_thumbnail_update` re-enables
`_allow_thumbnail_update` on every exit path including an exception in the
body.  The context manager has no `try/finally`, so a raising body leaves the
flag disabled: running the scope on a freshly initialized layer with a body
that raises immediately ends with `_allow_thumbnail_update = False` (and the
exception propagating), contradicting the claim. -/
theorem c2_thumbnail_flag_left_disabled_on_raise :
    ((runBlockThumbnailUpdate (fun t => (t, true)) initLayer).1).allowThumbnailUpdate
        = false ∧
      (runBlockThumbnailUpdate (fun t => (t, true)) initLayer).2 = true ∧
      ((runBlockThumbnailUpdate (fun t => (t, false)) initLayer).1).allowThumbnailUpdate
        = true :=
  ⟨rfl, rfl, rfl⟩

/-- C3 counterexample: the claim says `_finish_drawing` runs exactly when
leaving the draw-continuation group for a mode outside it.  On a fresh layer
(mode PAN_ZOOM, which is not in the group) switching to SELECT is not such a
transition, yet the setter does invoke `_finish_drawing`. -/
theorem c3_counterexample :
    initLayer.mode = Mode.panZoom ∧ Mode.panZoom ∉ drawModes ∧
      Mode.select ∈ drawModes ∧ (setModeAux initLayer Mode.select).2 = true :=
  ⟨rfl, by decide, by decide, rfl⟩

/-- C3 (amended): on a transition between distinct effective modes, the
`mode` setter invokes `_finish_drawing` exactly when NOT both the old and
the new mode lie in the draw-continuation group {SELECT, DIRECT,
VERTEX_INSERT, VERTEX_REMOVE}; only a draw-group-to-draw-group switch skips
finalization (pure refresh). -/
theorem c3_finalize_iff (s : ShapesLayer) (requested : Mode)
    (hne : (if ¬ s.editable then Mode.panZoom else requested) ≠ s.mode) :
    (setModeAux s requested).2 = true ↔
      ¬((if ¬ s.editable then Mode.panZoom else requested) ∈ drawModes ∧
        s.mode ∈ drawModes) := by
  unfold setModeAux
  dsimp only
  rw [if_neg hne]
  (repeat' split) <;> simp_all

/-- C3 witness: a concrete transition (fresh layer, PAN_ZOOM to ADD_PATH). -/
theorem c3_finalize_iff_witness :
    (setModeAux initLayer Mode.addPath).2 = true ↔
      ¬((if ¬ initLayer.editable then Mode.panZoom else Mode.addPath) ∈ drawModes ∧
        initLayer.mode ∈ drawModes) :=
  c3_finalize_iff initLayer Mode.addPath (by decide)

/-- C4: a non-editable layer is forced to PAN_ZOOM: every mode request on a
non-editable layer ends with mode PAN_ZOOM, `_set_editable` re-establishes
the invariant `editable = false → mode = PAN_ZOOM`, and in particular a 3D
display (`ndisplay = 3`) makes the layer non-editable with mode PAN_ZOOM. -/
theorem c4_non_editable_forces_pan_zoom (s : ShapesLayer) (requested : Mode)
    (e : Option Bool) :
    (s.editable = false → (setMode s requested).mode = Mode.panZoom) ∧
    ((setEditable s e).editable = false →
      (setEditable s e).mode = Mode.panZoom) ∧
    (s.ndisplay = 3 → (setEditable s none).editable = false ∧
      (setEditable s none).mode = Mode.panZoom) := by
  refine ⟨fun h => setMode_mode_not_editable s requested h, ?_, ?_⟩
  · intro h
    unfold setEditable at h ⊢
    rcases e with _ | b
    · dsimp only at h ⊢
      by_cases h3 : s.ndisplay = 3
      · have hed : decide (s.ndisplay ≠ 3) = false := by simp [h3]
        rw [if_pos (by simp [hed])] at h ⊢
        exact setMode_mode_not_editable _ _ hed
      · have hed : decide (s.ndisplay ≠ 3) = true := by simp [h3]
        rw [if_neg (by simp [hed])] at h ⊢
        simp_all
    · dsimp only at h ⊢
      by_cases hse : s.editable = true
      · rw [if_neg (by simp [hse])] at h ⊢
        simp_all
      · have hse2 : s.editable = false := by
          cases hbe : s.editable
          · rfl
          · exact absurd hbe hse
        rw [if_pos (by simp [hse2])] at h ⊢
        exact setMode_mode_not_editable _ _ hse2
  · intro h3
    unfold setEditable
    dsimp only
    have hed : decide (s.ndisplay ≠ 3) = false := by simp [h3]
    rw [if_pos (by simp [hed])]
    refine ⟨?_, setMode_mode_not_editable _ _ hed⟩
    rw [setMode_editable]
    exact hed

/-- C4 witness: a concrete non-editable layer and a concrete 3D layer. -/
theorem c4_witness :
    (setMode { initLayer with editable := false } Mode.addRectangle).mode
        = Mode.panZoom ∧
      (setEditable { initLayer with ndisplay := 3 } none).editable = false ∧
      (setEditable { initLayer with ndisplay := 3 } none).mode = Mode.panZoom :=
  ⟨(c4_non_editable_forces_pan_zoom { initLayer with editable := false }
      Mode.addRectangle none).1 rfl,
   ((c4_non_editable_forces_pan_zoom { initLayer with ndisplay := 3 }
      Mode.panZoom none).2.2 rfl).1,
   ((c4_non_editable_forces_pan_zoom { initLayer with ndisplay := 3 }
      Mode.panZoom none).2.2 rfl).2⟩

theorem validateProperties_error (props : Props) (n : Nat)
    (h : ∃ kv ∈ props, kv.2.values.length ≠ n) :
    validateProperties props n = Except.error PropError.lengthMismatch := by
  induction props with
  | nil => simp at h
  | cons kv rest ih =>
    unfold validateProperties
    by_cases hk : kv.2.values.length = n
    · rw [if_neg (by simp [hk])]
      rcases h with ⟨kv2, hm, hlen⟩
      rcases List.mem_cons.mp hm with rfl | hm2
      · exact absurd hk hlen
      · rw [ih ⟨kv2, hm2, hlen⟩]
    · rw [if_pos hk]

/-- C6: supplying a properties dict in which some value array's length
differs from the current shape count makes the `properties` setter raise the
length-mismatch `ValueError`, and the failed call leaves the layer state —
in particular the property store — exactly as it was (validation precedes
the assignment). -/
theorem c6_properties_length_mismatch_rejected (s : ShapesLayer) (props : Props)
    (h : ∃ kv ∈ props, kv.2.values.length ≠ s.shapes.length) :
    (setProperties s props).2 = some PropError.lengthMismatch ∧
    (setProperties s props).1 = s := by
  unfold setProperties
  rw [validateProperties_error props s.shapes.length h]
  exact ⟨rfl, rfl⟩

/-- C6 witness: a one-element property array against an empty layer. -/
theorem c6_witness :
    (setProperties initLayer
        [("class", { isNumeric := true, values := [5] })]).2 =
      some PropError.lengthMismatch ∧
    (setProperties initLayer
        [("class", { isNumeric := true, values := [5] })]).1 = initLayer :=
  c6_properties_length_mismatch_rejected initLayer
    [("class", { isNumeric := true, values := [5] })]
    ⟨("class", { isNumeric := true, values := [5] }), by simp, by simp [initLayer]⟩

/-- C10: passing an explicit `z_index=0` to `add` (or `_add_shapes`) while
the layer holds a shape of non-negative z-index is indistinguishable from
passing no z-index: Python `or` treats 0 as falsy, so both calls resolve the
z-index to `max(existing) + 1`, a strictly positive value, and every shape
of the resulting collection is either an old shape or carries that z-index
rather than the requested 0. -/
theorem c10_explicit_zero_z_index_ignored (s : ShapesLayer)
    (data : List (List Pt)) (k : ShapeKind) (ewArg : Option Int)
    (ecArg fcArg : Option (List Color))
    (h : ∃ sh ∈ s.shapes, 0 ≤ sh.zIndex) :
    shapesAdd s data k ewArg ecArg fcArg (some 0) =
      shapesAdd s data k ewArg ecArg fcArg none ∧
    addShapesUnder s data k ewArg ecArg fcArg (some 0) =
      addShapesUnder s data k ewArg ecArg fcArg none ∧
    resolveZIndex (some 0) (dataViewZIndex s) =
      intMaxD (dataViewZIndex s) (-1) + 1 ∧
    0 < resolveZIndex (some 0) (dataViewZIndex s) ∧
    (∀ sh ∈ (shapesAdd s data k ewArg ecArg fcArg (some 0)).shapes,
      sh ∈ s.shapes ∨ sh.zIndex = intMaxD (dataViewZIndex s) (-1) + 1) := by
  have hres : resolveZIndex (some 0) (dataViewZIndex s) =
      intMaxD (dataViewZIndex s) (-1) + 1 := by
    simp [resolveZIndex]
  have hpos : 0 < resolveZIndex (some 0) (dataViewZIndex s) := by
    rcases h with ⟨sh, hm, hz⟩
    have hmem : sh.zIndex ∈ dataViewZIndex s := List.mem_map_of_mem _ hm
    have := mem_le_foldl_max (dataViewZIndex s) (-1) sh.zIndex hmem
    rw [hres]
    unfold intMaxD
    omega
  refine ⟨?_, ?_, hres, hpos, ?_⟩
  · unfold shapesAdd
    simp only [resolveZIndex_zero]
  · unfold addShapesUnder
    simp only [resolveZIndex_zero]
  · intro sh hm
    rw [(shapesAdd_core s data k ewArg ecArg fcArg (some 0)).1] at hm
    rcases List.mem_append.mp hm with hold | hnew
    · exact Or.inl hold
    · rcases List.mem_map.mp hnew with ⟨dd, _, rfl⟩
      right
      rw [mkShape_zIndex, hres]

/-- C10 witness: a layer with one shape of z-index 0. -/
theorem c10_witness :
    shapesAdd zLayer [[(2, 2), (3, 3)]] ShapeKind.rectangle none none none
        (some 0) =
      shapesAdd zLayer [[(2, 2), (3, 3)]] ShapeKind.rectangle none none none
        none ∧
    resolveZIndex (some 0) (dataViewZIndex zLayer) =
      intMaxD (dataViewZIndex zLayer) (-1) + 1 ∧
    0 < resolveZIndex (some 0) (dataViewZIndex zLayer) := by
  have h := c10_explicit_zero_z_index_ignored zLayer [[(2, 2), (3, 3)]]
    ShapeKind.rectangle none none none
    ⟨mkShape ShapeKind.rectangle [(0, 0), (1, 1)] 1 0, by simp [zLayer], by decide⟩
  exact ⟨h.1, h.2.2.1, h.2.2.2.1⟩

theorem listModify_congr_getD [Inhabited α] (l : List α) (i : Nat) (f g : α → α)
    (h : f (l.getD i default) = g (l.getD i default)) :
    listModify l i f = listModify l i g := by
  induction l generalizing i with
  | nil => rfl
  | cons x xs ih =>
    cases i with
    | zero => simpa [listModify] using h
    | succ n =>
      simp only [listModify, List.cons.injEq, true_and]
      exact ih n (by simpa [List.getD] using h)

theorem getD_append_length (l : List α) (x : α) (d : α) :
    (l ++ [x]).getD l.length d = x := by
  induction l with
  | nil => rfl
  | cons y ys ih => simpa [List.getD] using ih

theorem listModify_append_last (l : List ShapeRec) (x : ShapeRec)
    (f : ShapeRec → ShapeRec) :
    listModify (l ++ [x]) l.length f = l ++ [f x] := by
  induction l with
  | nil => rfl
  | cons y ys ih => simp [listModify, ih]

theorem finishTrim_mode_ne (t : ShapesLayer) (idx : Option Nat) (m : Mode)
    (n : Nat) (h : t.mode ≠ m) : finishTrim t idx m n = t := by
  unfold finishTrim
  rw [if_neg (by simp [h])]

theorem finishTrim_remove (t : ShapesLayer) (i : Nat) (m : Mode) (n : Nat)
    (hc : t.isCreating = true) (hm : t.mode = m)
    (hlen : (t.shapes.getD i defaultShape).data.length ≤ n) :
    finishTrim t (some i) m n = shapeListRemove t i := by
  unfold finishTrim
  rw [if_pos ⟨hc, hm⟩]
  dsimp only
  rw [if_pos hlen]

theorem finishTrim_edit (t : ShapesLayer) (i : Nat) (m : Mode) (n : Nat)
    (hc : t.isCreating = true) (hm : t.mode = m)
    (hlen : n < (t.shapes.getD i defaultShape).data.length) :
    finishTrim t (some i) m n =
      shapeListEdit t i (t.shapes.getD i defaultShape).data.dropLast := by
  unfold finishTrim
  rw [if_pos ⟨hc, hm⟩]
  dsimp only
  rw [if_neg (by omega)]

theorem finishDrawing_creating (s : ShapesLayer) (i : Nat) (minPts : Nat)
    (hmv : s.movingValue.1 = some i) (hcr : s.isCreating = true)
    (hm : s.mode = Mode.addPath ∧ minPts = 2 ∨
          s.mode = Mode.addPolygon ∧ minPts = 3) :
    ((s.shapes.getD i defaultShape).data.length ≤ minPts →
      (finishDrawing s).shapes = s.shapes.eraseIdx i) ∧
    (minPts < (s.shapes.getD i defaultShape).data.length →
      (finishDrawing s).shapes =
        listModify s.shapes i (fun sh => { sh with data := sh.data.dropLast })) := by
  unfold finishDrawing
  simp only [setSelectedData_nil, hmv]
  rcases hm with ⟨hm, rfl⟩ | ⟨hm, rfl⟩
  · constructor
    · intro hlen
      rw [finishTrim_remove _ _ Mode.addPath _ (by exact hcr) (by exact hm)
        (by exact hlen)]
      rw [finishTrim_mode_ne _ _ _ _ (by simp [shapeListRemove, hm])]
      simp [shapeListRemove]
    · intro hlen
      rw [finishTrim_edit _ _ Mode.addPath _ (by exact hcr) (by exact hm)
        (by exact hlen)]
      rw [finishTrim_mode_ne _ _ _ _ (by simp [shapeListEdit, hm])]
      simp only [shapeListEdit]
      exact listModify_congr_getD _ _ _ _ rfl
  · constructor
    · intro hlen
      rw [finishTrim_mode_ne _ _ Mode.addPath _ (by simp [hm])]
      rw [finishTrim_remove _ _ Mode.addPolygon _ (by exact hcr) (by exact hm)
        (by exact hlen)]
      simp [shapeListRemove]
    · intro hlen
      rw [finishTrim_mode_ne _ _ Mode.addPath _ (by simp [hm])]
      rw [finishTrim_edit _ _ Mode.addPolygon _ (by exact hcr) (by exact hm)
        (by exact hlen)]
      simp only [shapeListEdit]
      exact listModify_congr_getD _ _ _ _ rfl

theorem addPathClick_creating (t : ShapesLayer) (p : Pt) (i : Nat)
    (hc : t.isCreating = true) (hmv : t.movingValue.1 = some i) :
    addPathClick t p =
      shapeListEdit t i ((t.shapes.getD i defaultShape).data ++ [p]) := by
  unfold addPathClick
  rw [if_pos hc]
  simp only [hmv]

theorem addPathClick_new (t : ShapesLayer) (p : Pt) (hc : t.isCreating = false) :
    addPathClick t p =
      { shapeListAdd t
          (mkShape (if t.mode = Mode.addPolygon then ShapeKind.polygon
            else ShapeKind.path) [p] t.currentEdgeWidth 0)
          t.currentEdgeColor t.currentFaceColor with
        isCreating := true, movingValue := (some t.shapes.length, none),
        selectedData := [t.shapes.length] } := by
  unfold addPathClick
  rw [if_neg (by simp [hc])]

theorem addPath_three_clicks (t : ShapesLayer) (hm : t.mode = Mode.addPath)
    (hc : t.isCreating = false) (p1 p2 p3 : Pt) :
    ((finishDrawing
        (addPathClick (addPathClick (addPathClick t p1) p2) p3)).shapes.getD
          t.shapes.length defaultShape).data = [p1, p2] ∧
    (finishDrawing
        (addPathClick (addPathClick (addPathClick t p1) p2) p3)).shapes.length =
      t.shapes.length + 1 := by
  have h1 := addPathClick_new t p1 hc
  have h1shapes : (addPathClick t p1).shapes =
      t.shapes ++ [mkShape ShapeKind.path [p1] t.currentEdgeWidth 0] := by
    rw [h1]; simp [shapeListAdd, hm]
  have h1c : (addPathClick t p1).isCreating = true := by rw [h1]
  have h1mv : (addPathClick t p1).movingValue.1 = some t.shapes.length := by
    rw [h1]
  have h1m : (addPathClick t p1).mode = t.mode := by
    rw [h1]; simp [shapeListAdd]
  have h2 := addPathClick_creating (addPathClick t p1) p2 t.shapes.length h1c h1mv
  have h2shapes : (addPathClick (addPathClick t p1) p2).shapes =
      t.shapes ++ [{ mkShape ShapeKind.path [p1] t.currentEdgeWidth 0 with
        data := [p1, p2] }] := by
    rw [h2]
    simp only [shapeListEdit, h1shapes, getD_append_length]
    rw [listModify_append_last]
    simp [mkShape]
  have h2c : (addPathClick (addPathClick t p1) p2).isCreating = true := by
    rw [h2]; simp [shapeListEdit, h1c]
  have h2mv : (addPathClick (addPathClick t p1) p2).movingValue.1 =
      some t.shapes.length := by
    rw [h2]; simp [shapeListEdit, h1mv]
  have h2m : (addPathClick (addPathClick t p1) p2).mode = t.mode := by
    rw [h2]; simp [shapeListEdit, h1m]
  have h3 := addPathClick_creating (addPathClick (addPathClick t p1) p2) p3
    t.shapes.length h2c h2mv
  have h3shapes : (addPathClick (addPathClick (addPathClick t p1) p2) p3).shapes =
      t.shapes ++ [{ mkShape ShapeKind.path [p1] t.currentEdgeWidth 0 with
        data := [p1, p2, p3] }] := by
    rw [h3]
    simp only [shapeListEdit, h2shapes, getD_append_length]
    rw [listModify_append_last]
    simp
  have h3c : (addPathClick (addPathClick (addPathClick t p1) p2) p3).isCreating
      = true := by
    rw [h3]; simp [shapeListEdit, h2c]
  have h3mv : (addPathClick (addPathClick (addPathClick t p1) p2) p3).movingValue.1
      = some t.shapes.length := by
    rw [h3]; simp [shapeListEdit, h2mv]
  have h3m : (addPathClick (addPathClick (addPathClick t p1) p2) p3).mode =
      Mode.addPath := by
    rw [h3]; simp [shapeListEdit, h2m, hm]
  have hfin := (finishDrawing_creating
    (addPathClick (addPathClick (addPathClick t p1) p2) p3)
    t.shapes.length 2 h3mv h3c (Or.inl ⟨h3m, rfl⟩)).2
  have hlen3 : (2 : Nat) <
      (((addPathClick (addPathClick (addPathClick t p1) p2) p3).shapes.getD
        t.shapes.length defaultShape)).data.length := by
    rw [h3shapes, getD_append_length]
    simp
  have hfin2 := hfin hlen3
  rw [hfin2, h3shapes, listModify_append_last]
  constructor
  · rw [getD_append_length]
    simp
  · simp

/-- C1: finalizing while creating a Path or Polygon (`_finish_drawing` with
`_is_creating` set and the corresponding mode active) drops the last
in-progress vertex of the shape at the moving index, and removes the shape
from the collection entirely when no more than 2 (Path) / 3 (Polygon)
vertices are present — i.e. when fewer than the minimum 2 / 3 vertices would
remain after the drop.  In particular, clicking 3 points in ADD_PATH mode
and then finalizing yields a 2-vertex Path, while a 2-point in-progress Path
(or 3-point Polygon) is discarded. -/
theorem c1_finish_drawing_path_polygon (s : ShapesLayer) (i : Nat)
    (hmv : s.movingValue.1 = some i) (hcr : s.isCreating = true) :
    (s.mode = Mode.addPath →
      (((s.shapes.getD i defaultShape).data.length ≤ 2 →
          (finishDrawing s).shapes = s.shapes.eraseIdx i) ∧
        (2 < (s.shapes.getD i defaultShape).data.length →
          (finishDrawing s).shapes =
            listModify s.shapes i
              (fun sh => { sh with data := sh.data.dropLast })))) ∧
    (s.mode = Mode.addPolygon →
      (((s.shapes.getD i defaultShape).data.length ≤ 3 →
          (finishDrawing s).shapes = s.shapes.eraseIdx i) ∧
        (3 < (s.shapes.getD i defaultShape).data.length →
          (finishDrawing s).shapes =
            listModify s.shapes i
              (fun sh => { sh with data := sh.data.dropLast })))) ∧
    (∀ t : ShapesLayer, t.mode = Mode.addPath → t.isCreating = false →
      ∀ p1 p2 p3 : Pt,
        ((finishDrawing
            (addPathClick (addPathClick (addPathClick t p1) p2) p3)).shapes.getD
              t.shapes.length defaultShape).data = [p1, p2] ∧
        (finishDrawing
            (addPathClick (addPathClick (addPathClick t p1) p2) p3)).shapes.length
          = t.shapes.length + 1) :=
  ⟨fun hm => finishDrawing_creating s i 2 hmv hcr (Or.inl ⟨hm, rfl⟩),
   fun hm => finishDrawing_creating s i 3 hmv hcr (Or.inr ⟨hm, rfl⟩),
   fun t hm hc p1 p2 p3 => addPath_three_clicks t hm hc p1 p2 p3⟩

/-- C1 witness: a concrete 3-vertex in-progress path is trimmed to 2
vertices, a concrete 2-vertex one is discarded, and three clicks from a
fresh ADD_PATH layer finalize to a 2-vertex path. -/
theorem c1_witness :
    (finishDrawing c1Layer).shapes =
      listModify c1Layer.shapes 0
        (fun sh => { sh with data := sh.data.dropLast }) ∧
    (finishDrawing { c1Layer with
        shapes := [mkShape ShapeKind.path [(0, 0), (1, 0)] 1 0] }).shapes =
      ({ c1Layer with
        shapes := [mkShape ShapeKind.path [(0, 0), (1, 0)] 1 0] } :
          ShapesLayer).shapes.eraseIdx 0 ∧
    ((finishDrawing (addPathClick (addPathClick
        (addPathClick c1StartLayer (0, 0)) (1, 0)) (1, 1))).shapes.getD
          c1StartLayer.shapes.length defaultShape).data = [(0, 0), (1, 0)] ∧
    (finishDrawing (addPathClick (addPathClick
        (addPathClick c1StartLayer (0, 0)) (1, 0)) (1, 1))).shapes.length =
      c1StartLayer.shapes.length + 1 := by
  refine ⟨?_, ?_, ?_, ?_⟩
  · exact ((c1_finish_drawing_path_polygon c1Layer 0 rfl rfl).1 rfl).2
      (by decide)
  · exact ((c1_finish_drawing_path_polygon
      { c1Layer with shapes := [mkShape ShapeKind.path [(0, 0), (1, 0)] 1 0] }
      0 rfl rfl).1 rfl).1 (by decide)
  · exact ((c1_finish_drawing_path_polygon c1Layer 0 rfl rfl).2.2 c1StartLayer
      rfl rfl (0, 0) (1, 0) (1, 1)).1
  · exact ((c1_finish_drawing_path_polygon c1Layer 0 rfl rfl).2.2 c1StartLayer
      rfl rfl (0, 0) (1, 0) (1, 1)).2

set_option maxHeartbeats 1000000 in
theorem mapColor_channel_frame (s : ShapesLayer) (ch2 : Channel) (u : Bool) :
    (mapColor s ch2 u).1.edgeColorMode = s.edgeColorMode ∧
    (mapColor s ch2 u).1.faceColorMode = s.faceColorMode ∧
    (mapColor s ch2 u).1.edgeColorProperty = s.edgeColorProperty ∧
    (mapColor s ch2 u).1.faceColorProperty = s.faceColorProperty ∧
    (mapColor s ch2 u).1.properties = s.properties := by
  cases ch2
  · cases hcm : getColorModeField s Channel.edge <;>
      simp only [mapColor, hcm] <;> (repeat' split) <;>
        simp_all [setColorCycle, setCycleMap, setContrastLimits]
  · cases hcm : getColorModeField s Channel.face <;>
      simp only [mapColor, hcm] <;> (repeat' split) <;>
        simp_all [setColorCycle, setCycleMap, setContrastLimits]

theorem refreshColor_channel_frame (s : ShapesLayer) (ch2 : Channel) (u : Bool) :
    (refreshColor s ch2 u).edgeColorMode = s.edgeColorMode ∧
    (refreshColor s ch2 u).faceColorMode = s.faceColorMode ∧
    (refreshColor s ch2 u).edgeColorProperty = s.edgeColorProperty ∧
    (refreshColor s ch2 u).faceColorProperty = s.faceColorProperty ∧
    (refreshColor s ch2 u).properties = s.properties := by
  unfold refreshColor
  have h := mapColor_channel_frame s ch2 u
  cases ch2
  · by_cases hc2 : getColorModeField s Channel.edge = ColorMode.cycle ∨
        getColorModeField s Channel.edge = ColorMode.colormap <;>
      split_ifs <;> simp_all [setViewColors]
  · by_cases hc2 : getColorModeField s Channel.face = ColorMode.cycle ∨
        getColorModeField s Channel.face = ColorMode.colormap <;>
      split_ifs <;> simp_all [setViewColors]

theorem refreshColors_channel_frame (s : ShapesLayer) (u : Bool) :
    (refreshColors s u).edgeColorMode = s.edgeColorMode ∧
    (refreshColors s u).faceColorMode = s.faceColorMode ∧
    (refreshColors s u).edgeColorProperty = s.edgeColorProperty ∧
    (refreshColors s u).faceColorProperty = s.faceColorProperty ∧
    (refreshColors s u).properties = s.properties := by
  unfold refreshColors
  have h1 := refreshColor_channel_frame s Channel.face u
  have h2 := refreshColor_channel_frame (refreshColor s Channel.face u)
    Channel.edge u
  simp_all

theorem getColorProp_setColorProp (s : ShapesLayer) (ch : Channel) (v : String) :
    getColorProp (setColorProp s ch v) ch = v := by
  cases ch <;> rfl

theorem setColorProp_properties (s : ShapesLayer) (ch : Channel) (v : String) :
    (setColorProp s ch v).properties = s.properties := by
  cases ch <;> rfl

theorem setColorModeField_getColorProp (s : ShapesLayer) (ch ch2 : Channel)
    (cm : ColorMode) :
    getColorProp (setColorModeField s ch cm) ch2 = getColorProp s ch2 := by
  cases ch <;> cases ch2 <;> rfl

theorem getColorModeField_setColorModeField (s : ShapesLayer) (ch : Channel)
    (cm : ColorMode) :
    getColorModeField (setColorModeField s ch cm) ch = cm := by
  cases ch <;> rfl

theorem getColorProp_frame_refresh (s : ShapesLayer) (ch : Channel) (u : Bool) :
    getColorProp (refreshColors s u) ch = getColorProp s ch := by
  have h := refreshColors_channel_frame s u
  cases ch <;> simp_all [getColorProp]

theorem getColorModeField_frame_refresh (s : ShapesLayer) (ch : Channel)
    (u : Bool) :
    getColorModeField (refreshColors s u) ch = getColorModeField s ch := by
  have h := refreshColors_channel_frame s u
  cases ch <;> simp_all [getColorModeField]

/-- C5: setting a channel's color mode to CYCLE or COLORMAP with no
designated color property auto-selects the first property and warns; with no
properties at all the call raises and the whole state — in particular the
mode — is unchanged; COLORMAP on a non-numeric designated property raises
with the state unchanged; and a successful CYCLE switch stores the mode. -/
theorem c5_set_color_mode (s : ShapesLayer) (ch : Channel) :
    (∀ cm, (cm = ColorMode.cycle ∨ cm = ColorMode.colormap) →
      getColorProp s ch = "" → s.properties = [] →
      setColorMode s ch cm = (s, some ColorModeError.noProperties, false)) ∧
    (∀ cm k a rest, (cm = ColorMode.cycle ∨ cm = ColorMode.colormap) →
      getColorProp s ch = "" → s.properties = (k, a) :: rest →
      getColorProp (setColorMode s ch cm).1 ch = k ∧
      (setColorMode s ch cm).2.2 = true) ∧
    (∀ a, getColorProp s ch ≠ "" →
      propsLookup s.properties (getColorProp s ch) = some a →
      a.isNumeric = false →
      setColorMode s ch ColorMode.colormap =
        (s, some ColorModeError.propertyNotNumeric, false)) ∧
    (∀ k a rest, getColorProp s ch = "" → s.properties = (k, a) :: rest →
      getColorModeField (setColorMode s ch ColorMode.cycle).1 ch =
        ColorMode.cycle ∧
      (setColorMode s ch ColorMode.cycle).2.1 = none) := by
  refine ⟨?_, ?_, ?_, ?_⟩
  · intro cm hcm hprop hempty
    rcases hcm with rfl | rfl <;>
      · unfold setColorMode
        dsimp only
        rw [if_pos hprop, hempty]
        rfl
  · intro cm k a rest hcm hprop hcons
    have step1 : (if getColorProp s ch = "" then
        match s.properties.head? with
        | some kv => (setColorProp s ch kv.1, (none : Option ColorModeError), true)
        | none => (s, some ColorModeError.noProperties, false)
      else (s, none, false)) = (setColorProp s ch k, none, true) := by
      rw [if_pos hprop, hcons]
      rfl
    rcases hcm with rfl | rfl
    · unfold setColorMode
      dsimp only
      rw [step1]
      dsimp only
      rw [if_neg (by simp)]
      constructor
      · rw [getColorProp_frame_refresh, setColorModeField_getColorProp,
          getColorProp_setColorProp]
      · rfl
    · unfold setColorMode
      dsimp only
      rw [step1]
      dsimp only
      split_ifs with hnum
      · exact ⟨getColorProp_setColorProp s ch k, rfl⟩
      · constructor
        · rw [getColorProp_frame_refresh, setColorModeField_getColorProp,
            getColorProp_setColorProp]
        · rfl
  · intro a hne hlook hnum
    unfold setColorMode
    dsimp only
    rw [if_neg hne]
    dsimp only
    rw [hlook]
    rw [if_pos ⟨rfl, hnum⟩]
  · intro k a rest hprop hcons
    have step1 : (if getColorProp s ch = "" then
        match s.properties.head? with
        | some kv => (setColorProp s ch kv.1, (none : Option ColorModeError), true)
        | none => (s, some ColorModeError.noProperties, false)
      else (s, none, false)) = (setColorProp s ch k, none, true) := by
      rw [if_pos hprop, hcons]
      rfl
    unfold setColorMode
    dsimp only
    rw [step1]
    dsimp only
    rw [if_neg (by simp)]
    constructor
    · rw [getColorModeField_frame_refresh, getColorModeField_setColorModeField]
    · rfl

/-- C5 witness: concrete calls on an empty layer and on `propsLayer`. -/
theorem c5_witness :
    setColorMode initLayer Channel.edge ColorMode.cycle =
      (initLayer, some ColorModeError.noProperties, false) ∧
    (getColorProp (setColorMode propsLayer Channel.face ColorMode.cycle).1
        Channel.face = "label" ∧
      (setColorMode propsLayer Channel.face ColorMode.cycle).2.2 = true) ∧
    setColorMode propsLayer Channel.edge ColorMode.colormap =
      (propsLayer, some ColorModeError.propertyNotNumeric, false) ∧
    (getColorModeField (setColorMode propsLayer Channel.face ColorMode.cycle).1
        Channel.face = ColorMode.cycle ∧
      (setColorMode propsLayer Channel.face ColorMode.cycle).2.1 = none) := by
  refine ⟨?_, ?_, ?_, ?_⟩
  · exact (c5_set_color_mode initLayer Channel.edge).1 ColorMode.cycle
      (Or.inl rfl) rfl rfl
  · exact (c5_set_color_mode propsLayer Channel.face).2.1 ColorMode.cycle
      "label" { isNumeric := false, values := [7, 7, 8] }
      [("size", { isNumeric := true, values := [1, 2, 3] })]
      (Or.inl rfl) rfl rfl
  · exact (c5_set_color_mode propsLayer Channel.edge).2.2.1
      { isNumeric := false, values := [7, 7, 8] } (by decide) rfl rfl
  · exact (c5_set_color_mode propsLayer Channel.face).2.2.2
      "label" { isNumeric := false, values := [7, 7, 8] }
      [("size", { isNumeric := true, values := [1, 2, 3] })] rfl rfl

theorem cmLookup_insert (m : CycleMap) (p : Int) (c : Color) (k : Int) :
    cmLookup (cmInsert m p c) k =
      if p = k then some c else cmLookup m k := by
  induction m with
  | nil => simp [cmInsert, cmLookup]
  | cons hd tl ih =>
    obtain ⟨k2, c2⟩ := hd
    simp only [cmInsert, cmLookup]
    split_ifs <;> simp_all [cmLookup] <;> split_ifs <;> simp_all

theorem cmLookup_isSome_iff (m : CycleMap) (k : Int) :
    (cmLookup m k).isSome ↔ k ∈ m.map Prod.fst := by
  induction m with
  | nil => simp [cmLookup]
  | cons hd tl ih =>
    obtain ⟨k2, c2⟩ := hd
    simp only [cmLookup, List.map_cons, List.mem_cons]
    split_ifs with h
    · subst h; simp
    · rw [ih]
      constructor
      · intro hm; exact Or.inr hm
      · intro hm
        rcases hm with heq | hm
        · exact absurd heq.symm h
        · exact hm

theorem foldIns_lookup_not_mem (ps : List Int) (k : Int) (hk : k ∉ ps) :
    ∀ (acc : CycleMap × ColorCycle),
    cmLookup (ps.foldl (fun (acc : CycleMap × ColorCycle) p =>
      (cmInsert acc.1 p (transformColor acc.2.next.1), acc.2.next.2)) acc).1 k =
      cmLookup acc.1 k := by
  induction ps with
  | nil => intro acc; rfl
  | cons p rest ih =>
    intro acc
    have hkp : p ≠ k := fun h => hk (h ▸ List.mem_cons_self p rest)
    have hkrest : k ∉ rest := fun h => hk (List.mem_cons_of_mem p h)
    rw [List.foldl_cons, ih hkrest]
    simp [cmLookup_insert, hkp]

theorem foldIns_lookup_isSome (ps : List Int) (k : Int) :
    ∀ (acc : CycleMap × ColorCycle),
    (cmLookup (ps.foldl (fun (acc : CycleMap × ColorCycle) p =>
      (cmInsert acc.1 p (transformColor acc.2.next.1), acc.2.next.2)) acc).1
        k).isSome →
      k ∈ ps ∨ (cmLookup acc.1 k).isSome := by
  induction ps with
  | nil => intro acc h; exact Or.inr h
  | cons p rest ih =>
    intro acc h
    rw [List.foldl_cons] at h
    rcases ih _ h with hmem | hsome
    · exact Or.inl (List.mem_cons_of_mem p hmem)
    · rw [cmLookup_insert] at hsome
      by_cases hpk : p = k
      · exact Or.inl (hpk ▸ List.mem_cons_self p rest)
      · rw [if_neg hpk] at hsome
        exact Or.inr hsome

theorem mem_insSortedInt (x y : Int) (l : List Int) :
    x ∈ insSortedInt y l ↔ x = y ∨ x ∈ l := by
  induction l with
  | nil => simp [insSortedInt]
  | cons z zs ih =>
    simp only [insSortedInt]
    split_ifs <;> simp_all [List.mem_cons] <;> tauto

theorem mem_sortInts (x : Int) (l : List Int) : x ∈ sortInts l ↔ x ∈ l := by
  induction l with
  | nil => simp [sortInts]
  | cons y ys ih =>
    simp only [sortInts, List.foldr_cons] at ih ⊢
    rw [mem_insSortedInt]
    simp [ih]

theorem mem_npUnique (x : Int) (l : List Int) : x ∈ npUnique l ↔ x ∈ l := by
  unfold npUnique
  rw [List.mem_dedup, mem_sortInts]

theorem takeN_length (n : Nat) : ∀ c : ColorCycle, (c.takeN n).1.length = n := by
  induction n with
  | zero => intro c; rfl
  | succ m ih =>
    intro c
    unfold ColorCycle.takeN
    simp [ih]

theorem listGetD_map (l : List α) (f : α → β) (j : Nat) (d : β) (d2 : α)
    (hj : j < l.length) : (l.map f).getD j d = f (l.getD j d2) := by
  induction l generalizing j with
  | nil => simp at hj
  | cons x xs ih =>
    cases j with
    | zero => rfl
    | succ n => simpa [List.getD] using ih n (by simpa using hj)

theorem getCycleMap_setCycleMap (s : ShapesLayer) (ch : Channel) (m : CycleMap) :
    getCycleMap (setCycleMap s ch m) ch = m := by
  cases ch <;> rfl

theorem getCycleMap_setColorCycle (s : ShapesLayer) (ch : Channel)
    (cyc : ColorCycle) :
    getCycleMap (setColorCycle s ch cyc) ch = getCycleMap s ch := by
  cases ch <;> rfl

/-- C8: recomputing cycle colors with `update_color_mapping=False` keeps the
color of every property value already present in the cycle map — the color
array assigns each shape whose value was mapped exactly its old color, and
only missing values acquire entries — while `update_color_mapping=True`
rebuilds the map from the current values alone. -/
theorem c8_cycle_map_stability (s : ShapesLayer) (ch : Channel)
    (hmode : getColorModeField s ch = ColorMode.cycle) :
    (∀ k c, cmLookup (getCycleMap s ch) k = some c →
      cmLookup (getCycleMap (mapColor s ch false).1 ch) k = some c) ∧
    (∀ j, j < (propsValues s.properties (getColorProp s ch)).length →
      ∀ c, cmLookup (getCycleMap s ch)
          ((propsValues s.properties (getColorProp s ch)).getD j 0) = some c →
        (mapColor s ch false).2.getD j cWhite = c) ∧
    (∀ k, (cmLookup (getCycleMap (mapColor s ch false).1 ch) k).isSome →
      (cmLookup (getCycleMap s ch) k).isSome ∨
        k ∈ propsValues s.properties (getColorProp s ch)) ∧
    ((getCycleMap (mapColor s ch true).1 ch).map Prod.fst =
      npUnique (propsValues s.properties (getColorProp s ch))) := by
  have hmapfalse : mapColor s ch false =
      (let colorProperties := propsValues s.properties (getColorProp s ch)
       let m := getCycleMap s ch
       let keys := m.map Prod.fst
       if colorProperties.all (fun x => decide (x ∈ keys)) then
         (s, colorProperties.map (fun x => (cmLookup m x).getD cWhite))
       else
         let propsToAdd := npUnique
           (colorProperties.filter (fun x => decide (x ∉ keys)))
         let mc := propsToAdd.foldl
           (fun (acc : CycleMap × ColorCycle) p =>
             (cmInsert acc.1 p (transformColor acc.2.next.1), acc.2.next.2))
           (m, getColorCycle s ch)
         let s1 := setColorCycle (setCycleMap s ch mc.1) ch mc.2
         (s1, colorProperties.map (fun x => (cmLookup mc.1 x).getD cWhite))) := by
    unfold mapColor
    rw [if_pos hmode]
    rfl
  have hnewlookup : ∀ k c, cmLookup (getCycleMap s ch) k = some c →
      cmLookup (getCycleMap (mapColor s ch false).1 ch) k = some c := by
    intro k c hk
    rw [hmapfalse]
    dsimp only
    split_ifs with hall
    · exact hk
    · rw [getCycleMap_setColorCycle, getCycleMap_setCycleMap]
      have hkmem : k ∈ (getCycleMap s ch).map Prod.fst :=
        (cmLookup_isSome_iff _ _).mp (by simp [hk])
      have hknot : k ∉ npUnique
          ((propsValues s.properties (getColorProp s ch)).filter
            (fun x => decide (x ∉ (getCycleMap s ch).map Prod.fst))) := by
        intro hmem
        rw [mem_npUnique] at hmem
        have h2 : ¬ k ∈ (getCycleMap s ch).map Prod.fst := by
          simpa using List.of_mem_filter hmem
        exact h2 hkmem
      rw [foldIns_lookup_not_mem _ _ hknot]
      exact hk
  have hcolors : ∀ j, j < (propsValues s.properties (getColorProp s ch)).length →
      ∀ c, cmLookup (getCycleMap s ch)
          ((propsValues s.properties (getColorProp s ch)).getD j 0) = some c →
        (mapColor s ch false).2.getD j cWhite = c := by
    intro j hj c hk
    rw [hmapfalse]
    rw [hmapfalse] at hnewlookup
    dsimp only at hnewlookup ⊢
    split_ifs with hall
    · rw [listGetD_map _ _ _ _ 0 hj, hk]
      rfl
    · rw [listGetD_map _ _ _ _ 0 hj]
      split_ifs at hnewlookup
      have := hnewlookup _ _ hk
      rw [getCycleMap_setColorCycle, getCycleMap_setCycleMap] at this
      rw [this]
      rfl
  refine ⟨hnewlookup, hcolors, ?_, ?_⟩
  · intro k hsome
    rw [hmapfalse] at hsome
    dsimp only at hsome
    split_ifs at hsome with hall
    · exact Or.inl hsome
    · rw [getCycleMap_setColorCycle, getCycleMap_setCycleMap] at hsome
      rcases foldIns_lookup_isSome _ _ _ hsome with hmem | hold
      · right
        rw [mem_npUnique] at hmem
        exact List.mem_of_mem_filter hmem
      · exact Or.inl hold
  · have hmaptrue : mapColor s ch true =
        (let colorProperties := propsValues s.properties (getColorProp s ch)
         let uniq := npUnique colorProperties
         let tk := (getColorCycle s ch).takeN uniq.length
         let newMap : CycleMap := uniq.zip (tk.1.map transformColor)
         let s1 := setColorCycle (setCycleMap s ch newMap) ch tk.2
         (s1, colorProperties.map (fun x => (cmLookup newMap x).getD cWhite))) := by
      unfold mapColor
      rw [if_pos hmode]
      rfl
    rw [hmaptrue]
    dsimp only
    rw [getCycleMap_setColorCycle, getCycleMap_setCycleMap]
    rw [List.map_fst_zip]
    rw [List.length_map, takeN_length]

/-- C8 witness: on `propsLayer` (cycle mode on `label`, value 7 already
mapped to magenta), a no-update recompute keeps 7's color in the map and in
shape 0's color row, and a full-update recompute rebuilds the map keys as
the sorted distinct property values. -/
theorem c8_witness :
    cmLookup (getCycleMap (mapColor propsLayer Channel.edge false).1
        Channel.edge) 7 = some (Color.rgba 1 0 1 1) ∧
    (mapColor propsLayer Channel.edge false).2.getD 0 cWhite =
      Color.rgba 1 0 1 1 ∧
    (getCycleMap (mapColor propsLayer Channel.edge true).1
        Channel.edge).map Prod.fst =
      npUnique (propsValues propsLayer.properties
        (getColorProp propsLayer Channel.edge)) := by
  have h := c8_cycle_map_stability propsLayer Channel.edge rfl
  exact ⟨h.1 7 (Color.rgba 1 0 1 1) (by decide),
    h.2.1 0 (by decide) (Color.rgba 1 0 1 1) (by decide), h.2.2.2⟩

theorem bup_face (t : ShapesLayer) (c : Color) :
    blockUpdateProperties (fun u => setCurrentFaceColor u c) t =
      { t with currentFaceColor := transformColor c,
               updateProperties := true } := by
  simp [blockUpdateProperties, setCurrentFaceColor]

theorem bup_edge (t : ShapesLayer) (c : Color) :
    blockUpdateProperties (fun u => setCurrentEdgeColor u c) t =
      { t with currentEdgeColor := transformColor c,
               updateProperties := true } := by
  simp [blockUpdateProperties, setCurrentEdgeColor]

theorem bup_width (t : ShapesLayer) (w : Int) :
    blockUpdateProperties (fun u => setCurrentEdgeWidth u w) t =
      { t with currentEdgeWidth := w, updateProperties := true } := by
  simp [blockUpdateProperties, setCurrentEdgeWidth]

theorem bup_props (t : ShapesLayer) (cp : List (String × List Int)) :
    blockUpdateProperties (fun u => setCurrentProperties u cp) t =
      { t with currentProperties := cp, updateProperties := true } := by
  simp [blockUpdateProperties, setCurrentProperties]

theorem interactionBox_set_selected (s : ShapesLayer) (v : List Nat)
    (sel2 : List Nat) :
    interactionBox { s with selectedData := v } sel2 = interactionBox s sel2 :=
  rfl

theorem interactionBox_singleton (s : ShapesLayer) (i : Nat) :
    interactionBox s [i] =
      some ((s.shapes.getD i defaultShape).box9 ++
        [s.rotationHandle (s.shapes.getD i defaultShape).box9]) := by
  unfold interactionBox
  rfl

set_option maxHeartbeats 3200000 in
/-- C9: setting `selected_data` to a non-empty selection recomputes
`_selected_box` as the selection's interaction box (the single shape's own
cached box, with the rotation handle appended, when exactly one shape is
selected) and seeds each `current_*` attribute with the selection's common
value exactly when it is uniform, leaving it unchanged otherwise. -/
theorem c9_selected_data_setter (s : ShapesLayer) (sel : List Nat)
    (hnd : sel.Nodup) (hne : sel ≠ []) :
    (setSelectedData s sel).selectedBox = interactionBox s sel ∧
    (∀ i, sel = [i] →
      (setSelectedData s sel).selectedBox =
        some ((s.shapes.getD i defaultShape).box9 ++
          [s.rotationHandle (s.shapes.getD i defaultShape).box9])) ∧
    ((uniqueColors (sel.map (fun i => s.faceColorArr.getD i cWhite))).length = 1 →
      (setSelectedData s sel).currentFaceColor =
        (uniqueColors (sel.map (fun i => s.faceColorArr.getD i cWhite))).headD
          cWhite) ∧
    ((uniqueColors (sel.map (fun i => s.faceColorArr.getD i cWhite))).length ≠ 1 →
      (setSelectedData s sel).currentFaceColor = s.currentFaceColor) ∧
    ((uniqueColors (sel.map (fun i => s.edgeColorArr.getD i cWhite))).length = 1 →
      (setSelectedData s sel).currentEdgeColor =
        (uniqueColors (sel.map (fun i => s.edgeColorArr.getD i cWhite))).headD
          cWhite) ∧
    ((uniqueColors (sel.map (fun i => s.edgeColorArr.getD i cWhite))).length ≠ 1 →
      (setSelectedData s sel).currentEdgeColor = s.currentEdgeColor) ∧
    (((sel.map (fun i => (s.shapes.getD i defaultShape).edgeWidth)).dedup).length
        = 1 →
      (setSelectedData s sel).currentEdgeWidth =
        ((sel.map (fun i => (s.shapes.getD i defaultShape).edgeWidth)).dedup).headD
          0) ∧
    (((sel.map (fun i => (s.shapes.getD i defaultShape).edgeWidth)).dedup).length
        ≠ 1 →
      (setSelectedData s sel).currentEdgeWidth = s.currentEdgeWidth) ∧
    ((s.properties.map (fun kv =>
        (kv.1, npUnique (sel.map (fun i => kv.2.values.getD i 0))))).all
          (fun kv => kv.2.length = 1) = true →
      (setSelectedData s sel).currentProperties =
        s.properties.map (fun kv =>
          (kv.1, npUnique (sel.map (fun i => kv.2.values.getD i 0))))) ∧
    ((s.properties.map (fun kv =>
        (kv.1, npUnique (sel.map (fun i => kv.2.values.getD i 0))))).all
          (fun kv => kv.2.length = 1) ≠ true →
      (setSelectedData s sel).currentProperties = s.currentProperties) := by
  have hpos : sel.length > 0 := List.length_pos.mpr hne
  unfold setSelectedData
  simp only [List.Nodup.dedup hnd]
  rw [if_pos hpos]
  rw [bup_face, bup_edge, bup_width, bup_props]
  refine ⟨?_, ?_, ?_, ?_, ?_, ?_, ?_, ?_, ?_, ?_⟩ <;>
    simp only [apply_ite ShapesLayer.currentFaceColor,
      apply_ite ShapesLayer.currentEdgeColor,
      apply_ite ShapesLayer.currentEdgeWidth,
      apply_ite ShapesLayer.currentProperties,
      apply_ite ShapesLayer.selectedBox,
      apply_ite ShapesLayer.edgeColorArr,
      apply_ite ShapesLayer.faceColorArr,
      apply_ite ShapesLayer.shapes,
      apply_ite ShapesLayer.properties, ite_self] <;>
    first
      | (split_ifs <;> simp_all [transformColor, -List.all_eq_true])
      | simp_all [transformColor, interactionBox_set_selected,
          interactionBox_singleton, -List.all_eq_true]
      | (intro i hi; subst hi;
         simp_all [interactionBox_set_selected, interactionBox_singleton,
           -List.all_eq_true])

/-- C9 witness: selecting shapes 1 and 2 of `propsLayer` seeds the uniform
face color, leaves the non-uniform edge color untouched, and a singleton
selection takes the shape's own cached box plus the rotation handle. -/
theorem c9_witness :
    (setSelectedData propsLayer [1, 2]).currentFaceColor = cWhite ∧
    (setSelectedData propsLayer [1, 2]).currentEdgeColor =
      propsLayer.currentEdgeColor ∧
    (setSelectedData propsLayer [2]).selectedBox =
      some ((propsLayer.shapes.getD 2 defaultShape).box9 ++
        [propsLayer.rotationHandle (propsLayer.shapes.getD 2 defaultShape).box9]) := by
  refine ⟨?_, ?_, ?_⟩
  · exact ((c9_selected_data_setter propsLayer [1, 2] (by decide)
      (by decide)).2.2.1 (by decide)).trans (by decide)
  · exact (c9_selected_data_setter propsLayer [1, 2] (by decide)
      (by decide)).2.2.2.2.2.1 (by decide)
  · exact (c9_selected_data_setter propsLayer [2] (by decide)
      (by decide)).2.1 2 rfl

theorem foldRemove_eq (idx : List Nat) : ∀ s : ShapesLayer,
    idx.foldl (fun acc i => shapeListRemove acc i) s =
      { s with shapes := idx.foldl (fun l i => l.eraseIdx i) s.shapes } := by
  induction idx with
  | nil => intro s; simp
  | cons i rest ih =>
    intro s
    rw [List.foldl_cons, ih]
    simp [shapeListRemove]

theorem foldl_eraseIdx_length (idx : List Nat) :
    ∀ (l : List ShapeRec), idx.Pairwise (· > ·) → (∀ i ∈ idx, i < l.length) →
    (idx.foldl (fun l i => l.eraseIdx i) l).length = l.length - idx.length := by
  induction idx with
  | nil => intro l _ _; rfl
  | cons i rest ih =>
    intro l hpw hbnd
    rw [List.foldl_cons]
    have hi : i < l.length := hbnd i (List.mem_cons_self i rest)
    have hlen : (l.eraseIdx i).length = l.length - 1 := by
      rw [List.length_eraseIdx]
      simp [hi]
    have hrest : ∀ j ∈ rest, j < (l.eraseIdx i).length := by
      intro j hj
      have hji : j < i := (List.pairwise_cons.mp hpw).1 j hj
      omega
    rw [ih (l.eraseIdx i) (List.pairwise_cons.mp hpw).2 hrest, hlen]
    simp only [List.length_cons]
    omega

theorem sortedDesc_perm (l : List Nat) : (sortedDesc l).Perm l := by
  unfold sortedDesc
  exact (List.reverse_perm _).trans (List.perm_insertionSort _ l)

theorem sortedDesc_pairwise_gt (l : List Nat) (hnd : l.Nodup) :
    (sortedDesc l).Pairwise (· > ·) := by
  unfold sortedDesc
  rw [List.pairwise_reverse]
  have hsorted : (List.insertionSort (· ≤ ·) l).Pairwise (· ≤ ·) :=
    List.sorted_insertionSort (· ≤ ·) l
  have hnd2 : (List.insertionSort (· ≤ ·) l).Nodup :=
    (List.perm_insertionSort (· ≤ ·) l).nodup_iff.mpr hnd
  have := hsorted.and hnd2
  exact this.imp (fun hab => lt_of_le_of_ne hab.1 hab.2)

theorem length_filter_mem_range (n : Nat) (idx : List Nat) (hnd : idx.Nodup)
    (hb : ∀ i ∈ idx, i < n) :
    ((List.range n).filter (fun i => decide (i ∈ idx))).length = idx.length := by
  have hnodup : ((List.range n).filter (fun i => decide (i ∈ idx))).Nodup :=
    (List.nodup_range n).filter _
  have hset : ((List.range n).filter (fun i => decide (i ∈ idx))).toFinset =
      idx.toFinset := by
    ext x
    simp only [List.mem_toFinset, List.mem_filter, List.mem_range,
      decide_eq_true_eq]
    exact ⟨fun h => h.2, fun h => ⟨hb x h, h⟩⟩
  calc ((List.range n).filter (fun i => decide (i ∈ idx))).length
      = ((List.range n).filter (fun i => decide (i ∈ idx))).toFinset.card :=
        (List.toFinset_card_of_nodup hnodup).symm
    _ = idx.toFinset.card := by rw [hset]
    _ = idx.length := List.toFinset_card_of_nodup hnd

theorem npDelete_length [Inhabited α] (l : List α) (idx : List Nat)
    (hnd : idx.Nodup) (hb : ∀ i ∈ idx, i < l.length) :
    (npDelete l idx).length = l.length - idx.length := by
  unfold npDelete
  rw [List.length_map]
  have hpart := List.length_eq_length_filter_add (l := List.range l.length)
    (fun i => decide (i ∈ idx))
  have hmem := length_filter_mem_range l.length idx hnd hb
  have hcompl : ((List.range l.length).filter
      (fun i => !decide (i ∈ idx))).length =
      ((List.range l.length).filter (fun i => decide (i ∉ idx))).length := by
    congr 1
    apply List.filter_congr
    intro x _
    simp
  rw [List.length_range] at hpart
  omega


theorem padProperties_len (t : ShapesLayer) (nNew : Nat)
    (hsync : ∀ kv ∈ t.properties, kv.2.values.length = t.shapes.length) :
    ∀ kv ∈ (padProperties t nNew).properties,
      kv.2.values.length = nNew + t.shapes.length := by
  intro kv hm
  unfold padProperties at hm
  dsimp only at hm
  rcases hps : t.properties with _ | ⟨kv0, rest0⟩
  · simp only [hps, List.head?_nil, List.map_nil, apply_ite ShapesLayer.properties,
      ite_self] at hm
    simp at hm
  · have hn0 : kv0.2.values.length = t.shapes.length :=
      hsync kv0 (by rw [hps]; exact List.mem_cons_self _ _)
    simp only [hps, List.head?_cons] at hm
    rw [if_neg (by omega)] at hm
    by_cases hpos : nNew > 0
    · rw [if_pos (by omega)] at hm
      dsimp only at hm
      rcases List.mem_map.mp hm with ⟨kv1, hmem1, heq1⟩
      have hn1 : kv1.2.values.length = t.shapes.length :=
        hsync kv1 (by rw [hps]; exact hmem1)
      subst heq1
      simp only [List.length_append, List.length_replicate]
      omega
    · rw [if_neg (by omega)] at hm
      have := hsync kv hm
      omega

theorem shapesAdd_props_len (s : ShapesLayer) (data : List (List Pt))
    (k : ShapeKind) (ewArg : Option Int) (ecArg fcArg : Option (List Color))
    (zArg : Option Int)
    (hsync : ∀ kv ∈ s.properties, kv.2.values.length = s.shapes.length) :
    ∀ kv ∈ (shapesAdd s data k ewArg ecArg fcArg zArg).properties,
      kv.2.values.length =
        (shapesAdd s data k ewArg ecArg fcArg zArg).shapes.length := by
  obtain ⟨a1, a2, a3, a4, a5, a6, a7⟩ :=
    resolveColorArg_frame s data.length Channel.edge ecArg
  obtain ⟨b1, b2, b3, b4, b5, b6, b7⟩ :=
    resolveColorArg_frame (resolveColorArg s data.length Channel.edge ecArg).1
      data.length Channel.face fcArg
  intro kv
  unfold shapesAdd
  dsimp only
  split
  · rw [addShapesUnder_eq]
    dsimp only
    intro hm
    obtain ⟨p1, p2, p3, p4, p5, p6⟩ :=
      padProperties_frame (resolveColorArg
        (resolveColorArg s data.length Channel.edge ecArg).1
        data.length Channel.face fcArg).1 data.length
    have hs1sync : ∀ kv1 ∈ (resolveColorArg
        (resolveColorArg s data.length Channel.edge ecArg).1
        data.length Channel.face fcArg).1.properties,
        kv1.2.values.length = (resolveColorArg
          (resolveColorArg s data.length Channel.edge ecArg).1
          data.length Channel.face fcArg).1.shapes.length := by
      rw [b4, a4, b1, a1]; exact hsync
    have hlen := padProperties_len _ data.length hs1sync kv hm
    rw [b1, a1] at hlen
    simp only [List.length_append, List.length_map, p1, b1, a1]
    omega
  · intro hm
    rw [b4, a4] at hm
    rw [b1, a1]
    exact hsync kv hm

theorem removeSelected_wf (s : ShapesLayer) (h : LayerWF s) :
    LayerWF (removeSelected s) := by
  obtain ⟨⟨hec, hfc, hpr⟩, hcr, hnd, hbnd⟩ := h
  have hperm := sortedDesc_perm s.selectedData
  have hpw := sortedDesc_pairwise_gt s.selectedData hnd
  have hlenR : (sortedDesc s.selectedData).length = s.selectedData.length :=
    hperm.length_eq
  have hbndR : ∀ i ∈ sortedDesc s.selectedData, i < s.shapes.length :=
    fun i hi => hbnd i (hperm.mem_iff.mp hi)
  have hs1shapes : ((sortedDesc s.selectedData).foldl
      (fun l i => l.eraseIdx i) s.shapes).length =
      s.shapes.length - s.selectedData.length := by
    rw [foldl_eraseIdx_length _ _ hpw hbndR, hlenR]
  unfold removeSelected
  dsimp only
  rw [foldRemove_eq, setSelectedData_nil,
    finishDrawing_not_creating _ (by dsimp only; split <;> exact hcr)]
  unfold LayerWF SyncInv
  dsimp only
  refine ⟨⟨?_, ?_, ?_⟩, rfl, List.nodup_nil, by simp⟩
  · split_ifs with hc
    · dsimp only
      rw [npDelete_length _ _ hnd (by rw [hec]; exact hbnd), hs1shapes]
      omega
    · dsimp only
      rw [hs1shapes]
      omega
  · split_ifs with hc
    · dsimp only
      rw [npDelete_length _ _ hnd (by rw [hfc]; exact hbnd), hs1shapes]
      omega
    · dsimp only
      rw [hs1shapes]
      omega
  · split_ifs with hc
    · dsimp only
      intro kv hm
      rcases List.mem_map.mp hm with ⟨kv1, hmem1, heq⟩
      subst heq
      dsimp only
      rw [npDelete_length _ _ hnd (by rw [hpr kv1 hmem1]; exact hbnd),
        hs1shapes, hpr kv1 hmem1]
    · intro kv hm
      dsimp only at hm ⊢
      rw [hs1shapes]
      have h0 : s.selectedData.length = 0 := by omega
      rw [h0, Nat.sub_zero]
      exact hpr kv hm

theorem shapesAdd_wf (s : ShapesLayer) (data : List (List Pt)) (k : ShapeKind)
    (ewArg : Option Int) (ecArg fcArg : Option (List Color)) (zArg : Option Int)
    (h : LayerWF s) : LayerWF (shapesAdd s data k ewArg ecArg fcArg zArg) := by
  obtain ⟨⟨hec, hfc, hpr⟩, hcr, hnd, hbnd⟩ := h
  obtain ⟨hsh, hcrf, hself, hecl, hfcl⟩ := shapesAdd_core s data k ewArg ecArg fcArg zArg
  refine ⟨⟨?_, ?_, ?_⟩, ?_, ?_, ?_⟩
  · rw [hecl, hsh]
    simp only [List.length_append, List.length_map]
    omega
  · rw [hfcl, hsh]
    simp only [List.length_append, List.length_map]
    omega
  · exact shapesAdd_props_len s data k ewArg ecArg fcArg zArg hpr
  · rw [hcrf]; exact hcr
  · rw [hself]; exact hnd
  · intro i hi
    rw [hself] at hi
    rw [hsh]
    simp only [List.length_append, List.length_map]
    have := hbnd i hi
    omega

theorem applyOp_wf (s : ShapesLayer) (op : ShapeOp) (h : LayerWF s) :
    LayerWF (applyOp s op) := by
  cases op with
  | add d k ew ec fc z => exact shapesAdd_wf s d k ew ec fc z h
  | removeSelected => exact removeSelected_wf s h

theorem applyOps_wf (ops : List ShapeOp) : ∀ s : ShapesLayer, LayerWF s →
    LayerWF (applyOps s ops) := by
  induction ops with
  | nil => intro s h; exact h
  | cons op rest ih =>
    intro s h
    exact ih (applyOp s op) (applyOp_wf s op h)

/-- C7: for every sequence of shape-adding (`add`) and shape-removing
(`remove_selected`) operations applied to a well-formed layer, after each
operation of the sequence (i.e. after every prefix) the parallel attribute
arrays stay index-synchronized with the shape sequence: the edge color array
and the face color array each have exactly one row per shape, and every
property array has length equal to the shape count. -/
theorem c7_parallel_arrays_stay_synchronized (s : ShapesLayer)
    (ops : List ShapeOp) (h : LayerWF s) :
    ∀ pre : List ShapeOp, pre <+: ops →
      (applyOps s pre).edgeColorArr.length = (applyOps s pre).shapes.length ∧
      (applyOps s pre).faceColorArr.length = (applyOps s pre).shapes.length ∧
      ∀ kv ∈ (applyOps s pre).properties,
        kv.2.values.length = (applyOps s pre).shapes.length := by
  intro pre _
  exact (applyOps_wf pre s h).1

/-- C7 witness: a concrete well-formed layer (three rectangles, two
selected, two property arrays) run through an `add` of one triangle followed
by `remove_selected`, checking the synchronization after the full sequence. -/
theorem c7_witness :
    LayerWF propsLayer ∧
    ([ShapeOp.add [[(0, 0), (1, 0), (1, 1)]] ShapeKind.polygon
        none none none none, ShapeOp.removeSelected] <+:
      [ShapeOp.add [[(0, 0), (1, 0), (1, 1)]] ShapeKind.polygon
        none none none none, ShapeOp.removeSelected]) ∧
    ((applyOps propsLayer
        [ShapeOp.add [[(0, 0), (1, 0), (1, 1)]] ShapeKind.polygon
          none none none none,
         ShapeOp.removeSelected]).edgeColorArr.length =
      (applyOps propsLayer
        [ShapeOp.add [[(0, 0), (1, 0), (1, 1)]] ShapeKind.polygon
          none none none none,
         ShapeOp.removeSelected]).shapes.length ∧
     (applyOps propsLayer
        [ShapeOp.add [[(0, 0), (1, 0), (1, 1)]] ShapeKind.polygon
          none none none none,
         ShapeOp.removeSelected]).faceColorArr.length =
      (applyOps propsLayer
        [ShapeOp.add [[(0, 0), (1, 0), (1, 1)]] ShapeKind.polygon
          none none none none,
         ShapeOp.removeSelected]).shapes.length ∧
     ∀ kv ∈ (applyOps propsLayer
        [ShapeOp.add [[(0, 0), (1, 0), (1, 1)]] ShapeKind.polygon
          none none none none,
         ShapeOp.removeSelected]).properties,
        kv.2.values.length =
          (applyOps propsLayer
            [ShapeOp.add [[(0, 0), (1, 0), (1, 1)]] ShapeKind.polygon
              none none none none,
             ShapeOp.removeSelected]).shapes.length) := by
  have hwf : LayerWF propsLayer := by
    refine ⟨⟨rfl, rfl, ?_⟩, rfl, by decide, ?_⟩ <;> decide
  exact ⟨hwf, List.prefix_refl _,
    c7_parallel_arrays_stay_synchronized propsLayer
      [ShapeOp.add [[(0, 0), (1, 0), (1, 1)]] ShapeKind.polygon
        none none none none, ShapeOp.removeSelected] hwf
      [ShapeOp.add [[(0, 0), (1, 0), (1, 1)]] ShapeKind.polygon
        none none none none, ShapeOp.removeSelected]
      (List.prefix_refl _)⟩
